import Mathlib

/-!
Verification development for the llama.cpp multi-agent collaboration runtime.

Shallow embedding of the collaboration kernel:
- `circuit_breaker` from src/common/agent/failure.cpp
- `retry_handler::can_handle` from src/common/agent/failure.cpp
- `agent_registry::send_request_with_policy` from src/common/agent/registry.cpp
- JSON codecs from src/common/agent/message.cpp, conversation.cpp,
  failure.cpp, agent.cpp and the knowledge-entry codec of
  src/tools/server/agent-collab.h / agent-collab.cpp
- `conversation_memory::build_conversation_history` from src/common/agent/conversation.cpp
- `task_scheduler` and `consensus_manager` from src/tools/server/agent-collab.cpp
- `message_queue` from src/common/agent/message.cpp
- `ggml_agent_supervisor` from src/ggml/src/ggml-agent/ggml-agent.cpp

Conventions: C++ integers (int, int64_t) are modelled as `Int`; C++ `float`
values that the code treats arithmetically (vote weights, backoff multiplier)
are modelled as `Rat` — every concrete value used in a theorem below is exactly
representable in the source's floating-point types, so the rational model agrees
with the float computation at those inputs. Wall-clock reads
(`get_timestamp_ms`) become explicit `now` parameters. Locks are dropped: each
member function is modelled as a pure state transformer, which is the
sequential semantics the locks enforce.
-/

namespace AgentSpec

/-! ### Circuit breaker — src/common/agent/failure.cpp lines 108-213

`circuit_breaker::impl` holds the parameters and mutable counters; the three
operations `record_success`, `record_failure`, `allow_request` are modelled as
state transformers taking the current time as a parameter. -/

inductive CircuitState where
  | closed
  | «open»
  | halfOpen
deriving DecidableEq, Repr

structure Breaker where
  failureThreshold : Int
  timeoutMs : Int
  successThreshold : Int
  state : CircuitState
  failureCount : Int
  successCount : Int
  lastFailureTime : Int
  lastStateChange : Int
deriving DecidableEq, Repr

/-- Constructor `circuit_breaker::circuit_breaker` via `impl::impl`:
closed, zero counters, `last_state_change = get_timestamp_ms()`. -/
def Breaker.mk0 (failThresh timeout successThresh now : Int) : Breaker :=
  { failureThreshold := failThresh
    timeoutMs := timeout
    successThreshold := successThresh
    state := .closed
    failureCount := 0
    successCount := 0
    lastFailureTime := 0
    lastStateChange := now }

/-- `circuit_breaker::record_success` (failure.cpp lines 136-150). -/
def Breaker.recordSuccess (b : Breaker) (now : Int) : Breaker :=
  if b.state = .halfOpen then
    let sc := b.successCount + 1
    if sc ≥ b.successThreshold then
      { b with state := .closed, failureCount := 0, successCount := 0,
               lastStateChange := now }
    else
      { b with successCount := sc }
  else if b.state = .closed then
    { b with failureCount := 0 }
  else
    b

/-- `circuit_breaker::record_failure` (failure.cpp lines 152-168). -/
def Breaker.recordFailure (b : Breaker) (now : Int) : Breaker :=
  let b := { b with lastFailureTime := now }
  if b.state = .closed then
    let fc := b.failureCount + 1
    if fc ≥ b.failureThreshold then
      { b with failureCount := fc, state := .«open», lastStateChange := now }
    else
      { b with failureCount := fc }
  else if b.state = .halfOpen then
    { b with state := .«open», successCount := 0, lastStateChange := now }
  else
    b

/-- `circuit_breaker::allow_request` (failure.cpp lines 170-190); returns the
boolean result together with the possibly updated state. -/
def Breaker.allowRequest (b : Breaker) (now : Int) : Bool × Breaker :=
  if b.state = .closed then
    (true, b)
  else if b.state = .«open» then
    if now - b.lastStateChange ≥ b.timeoutMs then
      (true, { b with state := .halfOpen, successCount := 0,
                      lastStateChange := now })
    else
      (false, b)
  else
    (true, b)

/-- Fold a list of failure times through `record_failure`. -/
def Breaker.recordFailures (b : Breaker) : List Int → Breaker
  | [] => b
  | t :: ts => (b.recordFailure t).recordFailures ts

/-! ### Error types and responses — src/common/agent/failure.h, message.h -/

inductive ErrorType where
  | none
  | timeout
  | connection
  | unavailable
  | overload
  | invalidRequest
  | invalidResponse
  | authentication
  | authorization
  | rateLimit
  | contextExpired
  | threadNotFound
  | agentNotFound
  | offline
  | internalError
  | unknown
deriving DecidableEq, Repr

inductive ResponseStatus where
  | success
  | error
  | continuationRequired
  | timeout
  | notFound
  | unavailable
deriving DecidableEq, Repr

/-- `retry_handler::can_handle` (failure.cpp lines 231-237). -/
def retryCanHandle (t : ErrorType) : Bool :=
  t = ErrorType.timeout ∨ t = ErrorType.connection ∨
  t = ErrorType.unavailable ∨ t = ErrorType.overload

/-- The part of `agent_response` (message.h) that `send_request_with_policy`
inspects: the status, plus the error classification for the record. -/
structure PolicyResponse where
  status : ResponseStatus
  errorType : ErrorType
deriving DecidableEq, Repr

/-- `failure_policy` (failure.h).  `max_retries` is modelled as `Nat`: the
retry loop `for (attempt = 0; attempt <= max_retries; ...)` is only meaningful
for a non-negative count (all three presets use 3, 5, 1).
`backoff_multiplier` is a C++ float, modelled as `Rat`. -/
structure FailurePolicy where
  maxRetries : Nat
  retryDelayMs : Int
  backoffMultiplier : Rat
  maxRetryDelayMs : Int
  timeoutMs : Int
  enableFailover : Bool
  fallbackAgents : List String
  logFailures : Bool
deriving DecidableEq, Repr

/-- `failure_policy::default_policy` (failure.cpp lines 36-47). -/
def FailurePolicy.defaultPolicy : FailurePolicy :=
  { maxRetries := 3, retryDelayMs := 1000, backoffMultiplier := 2,
    maxRetryDelayMs := 30000, timeoutMs := 30000, enableFailover := false,
    fallbackAgents := [], logFailures := true }

/-- `failure_policy::aggressive_policy` (failure.cpp lines 49-60); the
multiplier 1.5f is exactly representable, so `3/2 : Rat` is faithful. -/
def FailurePolicy.aggressivePolicy : FailurePolicy :=
  { maxRetries := 5, retryDelayMs := 500, backoffMultiplier := 3 / 2,
    maxRetryDelayMs := 10000, timeoutMs := 60000, enableFailover := true,
    fallbackAgents := [], logFailures := true }

/-- `failure_policy::conservative_policy` (failure.cpp lines 62-73). -/
def FailurePolicy.conservativePolicy : FailurePolicy :=
  { maxRetries := 1, retryDelayMs := 2000, backoffMultiplier := 2,
    maxRetryDelayMs := 60000, timeoutMs := 15000, enableFailover := false,
    fallbackAgents := [], logFailures := true }

/-! ### `agent_registry::send_request_with_policy` — src/common/agent/registry.cpp
lines 215-267

The inner call `send_request(agent_id, request)` is abstracted as a behaviour
`primary : Nat → PolicyResponse` giving the response of attempt `k`, and the
fallback agents' behaviour as `fallback : String → PolicyResponse`.  The model
returns, besides the final response, the number of attempts made on the primary
agent and the list of backoff delays slept, in order — registry.cpp lines
244-253:

    int64_t delay = policy.retry_delay_ms *
        static_cast<int64_t>(std::pow(policy.backoff_multiplier, attempt));
    if (delay > policy.max_retry_delay_ms) delay = policy.max_retry_delay_ms;

Note the cast: `std::pow` is truncated to an integer BEFORE the
multiplication.  For every multiplier and exponent appearing in a theorem below
the `double` value of `std::pow` is exact, so `Rat.floor` of the rational power
is the faithful model of the cast (the values are non-negative). -/

/-- The backoff delay the code sleeps after failed attempt `k`.  The floor
models the `static_cast<int64_t>` (they agree for the non-negative power
values a backoff multiplier produces). -/
def codeDelay (p : FailurePolicy) (k : Nat) : Int :=
  let delay := p.retryDelayMs * ⌊p.backoffMultiplier ^ k⌋
  if delay > p.maxRetryDelayMs then p.maxRetryDelayMs else delay

/-- The delay claimed by the specification:
min(retry_delay_ms × multiplier^k, max_retry_delay_ms), computed exactly.
Modelled from the spec for comparison with `codeDelay`. -/
def specDelay (p : FailurePolicy) (k : Nat) : Rat :=
  min ((p.retryDelayMs : Rat) * p.backoffMultiplier ^ k) (p.maxRetryDelayMs : Rat)

/-- The retry loop of `send_request_with_policy`: at attempt `k` (with
`remaining` further attempts permitted) call the primary; return on success;
on failure either stop (`remaining = 0`, i.e. `attempt == policy.max_retries`)
or sleep `codeDelay p k` and continue.  Returns (last response, total number of
attempts made, delays slept in order). -/
def retryLoop (primary : Nat → PolicyResponse) (p : FailurePolicy) :
    Nat → Nat → PolicyResponse × Nat × List Int
  | k, remaining =>
    let r := primary k
    if r.status = .success then (r, k + 1, [])
    else
      match remaining with
      | 0 => (r, k + 1, [])
      | n + 1 =>
        let rest := retryLoop primary p (k + 1) n
        (rest.1, rest.2.1, codeDelay p k :: rest.2.2)

/-- The failover scan (registry.cpp lines 257-264): iterate
`policy.fallback_agents` in order, return the first success. -/
def firstFallbackSuccess (fallback : String → PolicyResponse) :
    List String → Option PolicyResponse
  | [] => Option.none
  | id :: rest =>
    let r := fallback id
    if r.status = .success then some r else firstFallbackSuccess fallback rest

/-- Result of a `send_request_with_policy` run: the response returned, the
number of attempts made on the primary agent and the backoff delays slept. -/
structure PolicyRun where
  result : PolicyResponse
  primaryAttempts : Nat
  sleeps : List Int
deriving DecidableEq, Repr

/-- `agent_registry::send_request_with_policy` (registry.cpp lines 215-267):
the retry loop, then — only when every attempt failed and failover is enabled
with a non-empty fallback list — the failover scan, whose first success is
returned; otherwise the last response stands. -/
def sendRequestWithPolicy (primary : Nat → PolicyResponse)
    (fallback : String → PolicyResponse) (p : FailurePolicy) : PolicyRun :=
  let lp := retryLoop primary p 0 p.maxRetries
  let finalResp :=
    if lp.1.status = .success then lp.1
    else if p.enableFailover ∧ p.fallbackAgents ≠ [] then
      match firstFallbackSuccess fallback p.fallbackAgents with
      | some r => r
      | Option.none => lp.1
    else lp.1
  ⟨finalResp, lp.2.1, lp.2.2⟩

/-! ### JSON model — src/common/agent/message.cpp, conversation.cpp, failure.cpp

The nlohmann AST is modelled structurally: objects are key/value lists in
insertion order, numbers split into integer and floating storage (mirroring
nlohmann's number_integer / number_float distinction; the only float-valued
field, `temperature`, is modelled as `Rat`).  `to_json()` produces the AST;
`from_json()` consumes it; the `dump`/`parse` text step in between is the
identity on this AST.  `j.value(key, default)` returns the default when the key
is absent (on the round-trip inputs considered here the types always match, so
its throw-on-type-mismatch branch is never reached; the model returns the
default there). -/

inductive Json where
  | str : String → Json
  | int : Int → Json
  | rat : Rat → Json
  | bool : Bool → Json
  | arr : List Json → Json
  | obj : List (String × Json) → Json

def jLookup (k : String) : List (String × Json) → Option Json
  | [] => Option.none
  | (k2, v) :: rest => if k2 = k then some v else jLookup k rest

def Json.getField (j : Json) (k : String) : Option Json :=
  match j with
  | .obj fields => jLookup k fields
  | _ => Option.none

/-- `j.value(key, string-default)`. -/
def Json.vStr (j : Json) (k : String) (d : String) : String :=
  match j.getField k with
  | some (.str s) => s
  | _ => d

/-- `j.value(key, integer-default)`. -/
def Json.vInt (j : Json) (k : String) (d : Int) : Int :=
  match j.getField k with
  | some (.int n) => n
  | _ => d

/-- `j.value(key, float-default)`. -/
def Json.vRat (j : Json) (k : String) (d : Rat) : Rat :=
  match j.getField k with
  | some (.rat q) => q
  | _ => d

/-- `j.value(key, bool-default)`. -/
def Json.vBool (j : Json) (k : String) (d : Bool) : Bool :=
  match j.getField k with
  | some (.bool b) => b
  | _ => d

/-- Reading a `std::vector<std::string>` back out of a JSON value. -/
def strListOfJson : Json → List String
  | .arr l => l.filterMap fun v =>
      match v with | .str s => some s | _ => Option.none
  | _ => []

/-- `j.value(key, std::vector<std::string>())`. -/
def Json.vStrList (j : Json) (k : String) : List String :=
  match j.getField k with
  | some v => strListOfJson v
  | _ => []

/-- Reading a `std::map<std::string,std::string>` back out of a JSON value. -/
def strMapOfJson : Json → List (String × String)
  | .obj fields => fields.filterMap fun f =>
      match f.2 with | .str s => some (f.1, s) | _ => Option.none
  | _ => []

/-- `j.value(key, std::map<std::string,std::string>())`; std::map iterates in
key order, modelled by keeping the association list as stored. -/
def Json.vStrMap (j : Json) (k : String) : List (String × String) :=
  match j.getField k with
  | some v => strMapOfJson v
  | _ => []

def encodeStrList (l : List String) : Json :=
  .arr (l.map .str)

def encodeStrMap (m : List (String × String)) : Json :=
  .obj (m.map fun f => (f.1, .str f.2))

/-! ### Message-layer entities — src/common/agent/message.h / message.cpp -/

inductive MessageType where
  | request
  | response
  | notification
  | error
  | heartbeat
  | broadcast
deriving DecidableEq, Repr

/-- `message_type_to_string` (message.cpp lines 55-65). -/
def messageTypeToString : MessageType → String
  | .request => "request"
  | .response => "response"
  | .notification => "notification"
  | .error => "error"
  | .heartbeat => "heartbeat"
  | .broadcast => "broadcast"

/-- The string-to-enum dispatch in `agent_message::from_json` (message.cpp
lines 102-108); anything unrecognized becomes `request`. -/
def parseMessageType (s : String) : MessageType :=
  if s = "response" then .response
  else if s = "notification" then .notification
  else if s = "error" then .error
  else if s = "heartbeat" then .heartbeat
  else if s = "broadcast" then .broadcast
  else .request

/-- `response_status_to_string` (message.cpp lines 68-78). -/
def responseStatusToString : ResponseStatus → String
  | .success => "success"
  | .error => "error"
  | .continuationRequired => "continuation_required"
  | .timeout => "timeout"
  | .notFound => "not_found"
  | .unavailable => "unavailable"

/-- The dispatch in `agent_response::from_json` (message.cpp lines 163-169). -/
def parseResponseStatus (s : String) : ResponseStatus :=
  if s = "error" then .error
  else if s = "continuation_required" then .continuationRequired
  else if s = "timeout" then .timeout
  else if s = "not_found" then .notFound
  else if s = "unavailable" then .unavailable
  else .success

structure AgentMessage where
  messageId : String
  fromAgent : String
  toAgent : String
  type : MessageType
  payload : String
  threadId : String
  timestamp : Int
  priority : Int
  metadata : List (String × String)
deriving DecidableEq, Repr

/-- `agent_message::to_json` (message.cpp lines 81-93). -/
def AgentMessage.encode (m : AgentMessage) : Json :=
  .obj [("message_id", .str m.messageId),
        ("from_agent", .str m.fromAgent),
        ("to_agent", .str m.toAgent),
        ("type", .str (messageTypeToString m.type)),
        ("payload", .str m.payload),
        ("thread_id", .str m.threadId),
        ("timestamp", .int m.timestamp),
        ("priority", .int m.priority),
        ("metadata", encodeStrMap m.metadata)]

/-- `agent_message::from_json` (message.cpp lines 95-116); `now` stands for
the `get_timestamp_ms()` default of the timestamp field. -/
def AgentMessage.decode (j : Json) (now : Int) : AgentMessage :=
  { messageId := j.vStr "message_id" ""
    fromAgent := j.vStr "from_agent" ""
    toAgent := j.vStr "to_agent" ""
    type := parseMessageType (j.vStr "type" "request")
    payload := j.vStr "payload" ""
    threadId := j.vStr "thread_id" ""
    timestamp := j.vInt "timestamp" now
    priority := j.vInt "priority" 5
    metadata := j.vStrMap "metadata" }

structure AgentRequest where
  prompt : String
  threadId : String
  files : List String
  images : List String
  params : List (String × String)
  maxTokens : Int
  temperature : Rat
  systemPrompt : String
deriving DecidableEq, Repr

/-- `agent_request::to_json` (message.cpp lines 119-130). -/
def AgentRequest.encode (r : AgentRequest) : Json :=
  .obj [("prompt", .str r.prompt),
        ("thread_id", .str r.threadId),
        ("files", encodeStrList r.files),
        ("images", encodeStrList r.images),
        ("params", encodeStrMap r.params),
        ("max_tokens", .int r.maxTokens),
        ("temperature", .rat r.temperature),
        ("system_prompt", .str r.systemPrompt)]

/-- `agent_request::from_json` (message.cpp lines 132-144). -/
def AgentRequest.decode (j : Json) : AgentRequest :=
  { prompt := j.vStr "prompt" ""
    threadId := j.vStr "thread_id" ""
    files := j.vStrList "files"
    images := j.vStrList "images"
    params := j.vStrMap "params"
    maxTokens := j.vInt "max_tokens" 0
    temperature := j.vRat "temperature" (7 / 10)
    systemPrompt := j.vStr "system_prompt" "" }

structure AgentResponse where
  status : ResponseStatus
  content : String
  threadId : String
  tokensUsed : Int
  errorMessage : String
  errorType : String
  metadata : List (String × String)
deriving DecidableEq, Repr

/-- `agent_response::to_json` (message.cpp lines 147-157). -/
def AgentResponse.encode (r : AgentResponse) : Json :=
  .obj [("status", .str (responseStatusToString r.status)),
        ("content", .str r.content),
        ("thread_id", .str r.threadId),
        ("tokens_used", .int r.tokensUsed),
        ("error_message", .str r.errorMessage),
        ("error_type", .str r.errorType),
        ("metadata", encodeStrMap r.metadata)]

/-- `agent_response::from_json` (message.cpp lines 159-178). -/
def AgentResponse.decode (j : Json) : AgentResponse :=
  { status := parseResponseStatus (j.vStr "status" "success")
    content := j.vStr "content" ""
    threadId := j.vStr "thread_id" ""
    tokensUsed := j.vInt "tokens_used" 0
    errorMessage := j.vStr "error_message" ""
    errorType := j.vStr "error_type" ""
    metadata := j.vStrMap "metadata" }

/-! ### Conversation entities — src/common/agent/conversation.h / conversation.cpp -/

structure ConversationTurn where
  role : String
  content : String
  timestamp : Int
  files : List String
  images : List String
  agentId : String
  model : String
  metadata : List (String × String)
deriving DecidableEq, Repr

/-- `conversation_turn::to_json` (conversation.cpp lines 37-48). -/
def ConversationTurn.encode (t : ConversationTurn) : Json :=
  .obj [("role", .str t.role),
        ("content", .str t.content),
        ("timestamp", .int t.timestamp),
        ("files", encodeStrList t.files),
        ("images", encodeStrList t.images),
        ("agent_id", .str t.agentId),
        ("model", .str t.model),
        ("metadata", encodeStrMap t.metadata)]

/-- `conversation_turn::from_json` (conversation.cpp lines 50-62). -/
def ConversationTurn.decode (j : Json) (now : Int) : ConversationTurn :=
  { role := j.vStr "role" "user"
    content := j.vStr "content" ""
    timestamp := j.vInt "timestamp" now
    files := j.vStrList "files"
    images := j.vStrList "images"
    agentId := j.vStr "agent_id" ""
    model := j.vStr "model" ""
    metadata := j.vStrMap "metadata" }

structure ConversationThread where
  threadId : String
  parentId : String
  createdAt : Int
  updatedAt : Int
  initiatingAgent : String
  context : List (String × String)
  expiresAt : Int
  turns : List ConversationTurn
deriving DecidableEq, Repr

/-- `conversation_thread::to_json` (conversation.cpp lines 69-86). -/
def ConversationThread.encode (th : ConversationThread) : Json :=
  .obj [("thread_id", .str th.threadId),
        ("parent_id", .str th.parentId),
        ("created_at", .int th.createdAt),
        ("updated_at", .int th.updatedAt),
        ("initiating_agent", .str th.initiatingAgent),
        ("context", encodeStrMap th.context),
        ("expires_at", .int th.expiresAt),
        ("turns", .arr (th.turns.map ConversationTurn.encode))]

/-- `conversation_thread::from_json` (conversation.cpp lines 88-106). -/
def ConversationThread.decode (j : Json) (now : Int) : ConversationThread :=
  { threadId := j.vStr "thread_id" ""
    parentId := j.vStr "parent_id" ""
    createdAt := j.vInt "created_at" now
    updatedAt := j.vInt "updated_at" now
    initiatingAgent := j.vStr "initiating_agent" ""
    context := j.vStrMap "context"
    expiresAt := j.vInt "expires_at" 0
    turns :=
      match j.getField "turns" with
      | some (.arr l) => l.map (fun tj => ConversationTurn.decode tj now)
      | _ => [] }

/-! ### Failure record — src/common/agent/failure.h / failure.cpp -/

/-- `error_type_to_string` (failure.cpp lines 13-33). -/
def errorTypeToString : ErrorType → String
  | .none => "none"
  | .timeout => "timeout"
  | .connection => "connection"
  | .unavailable => "unavailable"
  | .overload => "overload"
  | .invalidRequest => "invalid_request"
  | .invalidResponse => "invalid_response"
  | .authentication => "authentication"
  | .authorization => "authorization"
  | .rateLimit => "rate_limit"
  | .contextExpired => "context_expired"
  | .threadNotFound => "thread_not_found"
  | .agentNotFound => "agent_not_found"
  | .offline => "offline"
  | .internalError => "internal_error"
  | .unknown => "unknown"

structure FailureRecord where
  agentId : String
  error : ErrorType
  errorMessage : String
  timestamp : Int
  threadId : String
  messageId : String
  retryCount : Int
  recovered : Bool
  recoveryAgent : String
deriving DecidableEq, Repr

/-- `failure_record::to_json` (failure.cpp lines 76-88). -/
def FailureRecord.encode (r : FailureRecord) : Json :=
  .obj [("agent_id", .str r.agentId),
        ("error", .str (errorTypeToString r.error)),
        ("error_message", .str r.errorMessage),
        ("timestamp", .int r.timestamp),
        ("thread_id", .str r.threadId),
        ("message_id", .str r.messageId),
        ("retry_count", .int r.retryCount),
        ("recovered", .bool r.recovered),
        ("recovery_agent", .str r.recoveryAgent)]

/-- `failure_record::from_json` (failure.cpp lines 90-106).  The function reads
`error` into a local string but then unconditionally stores
`ERROR_TYPE_UNKNOWN` ("Default, parse if needed"); `now` is the
`get_timestamp_ms()` default for the timestamp. -/
def FailureRecord.decode (j : Json) (now : Int) : FailureRecord :=
  { agentId := j.vStr "agent_id" ""
    error := ErrorType.unknown
    errorMessage := j.vStr "error_message" ""
    timestamp := j.vInt "timestamp" now
    threadId := j.vStr "thread_id" ""
    messageId := j.vStr "message_id" ""
    retryCount := j.vInt "retry_count" 0
    recovered := j.vBool "recovered" false
    recoveryAgent := j.vStr "recovery_agent" "" }

/-! ### Agent info — src/common/agent/agent.h / agent.cpp lines 12-60 -/

inductive AgentStatus where
  | active
  | idle
  | busy
  | error
  | offline
  | unknown
deriving DecidableEq, Repr

/-- `agent_status_to_string` (agent.cpp lines 12-22). -/
def agentStatusToString : AgentStatus → String
  | .active => "active"
  | .idle => "idle"
  | .busy => "busy"
  | .error => "error"
  | .offline => "offline"
  | .unknown => "unknown"

/-- The string-to-enum dispatch in `agent_info::from_json` (agent.cpp lines
48-54); anything unrecognized becomes `unknown`. -/
def parseAgentStatus (s : String) : AgentStatus :=
  if s = "active" then .active
  else if s = "idle" then .idle
  else if s = "busy" then .busy
  else if s = "error" then .error
  else if s = "offline" then .offline
  else .unknown

structure AgentInfo where
  id : String
  name : String
  description : String
  capabilities : List String
  endpoint : String
  status : AgentStatus
  lastHeartbeat : Int
  createdAt : Int
  metadata : List (String × String)
deriving DecidableEq, Repr

/-- `agent_info::to_json` (agent.cpp lines 25-37). -/
def AgentInfo.encode (a : AgentInfo) : Json :=
  .obj [("id", .str a.id),
        ("name", .str a.name),
        ("description", .str a.description),
        ("capabilities", encodeStrList a.capabilities),
        ("endpoint", .str a.endpoint),
        ("status", .str (agentStatusToString a.status)),
        ("last_heartbeat", .int a.lastHeartbeat),
        ("created_at", .int a.createdAt),
        ("metadata", encodeStrMap a.metadata)]

/-- `agent_info::from_json` (agent.cpp lines 39-60); `now` stands for the
`get_timestamp_ms()` defaults of the two timestamp fields. -/
def AgentInfo.decode (j : Json) (now : Int) : AgentInfo :=
  { id := j.vStr "id" ""
    name := j.vStr "name" ""
    description := j.vStr "description" ""
    capabilities := j.vStrList "capabilities"
    endpoint := j.vStr "endpoint" ""
    status := parseAgentStatus (j.vStr "status" "unknown")
    lastHeartbeat := j.vInt "last_heartbeat" now
    createdAt := j.vInt "created_at" now
    metadata := j.vStrMap "metadata" }

/-! ### Knowledge entry codec — src/tools/server/agent-collab.h lines 88-106,
agent-collab.cpp lines 278-294 -/

structure KnowledgeEntry where
  key : String
  value : String
  contributorId : String
  timestamp : Int
  version : Int
  tags : List String
deriving DecidableEq, Repr

/-- `knowledge_entry::to_json` (agent-collab.h lines 96-105). -/
def KnowledgeEntry.encode (e : KnowledgeEntry) : Json :=
  .obj [("key", .str e.key),
        ("value", .str e.value),
        ("contributor_id", .str e.contributorId),
        ("timestamp", .int e.timestamp),
        ("version", .int e.version),
        ("tags", encodeStrList e.tags)]

/-- The per-entry decode in `knowledge_base::from_json` (agent-collab.cpp
lines 283-292).  The C++ reads with `item["key"]`-style access, which throws
when a key is missing or mistyped; on an encoded entry every key is present
with the right type, so that throw path is never taken on the inputs
considered here and the default-returning model agrees with it. -/
def KnowledgeEntry.decode (j : Json) : KnowledgeEntry :=
  { key := j.vStr "key" ""
    value := j.vStr "value" ""
    contributorId := j.vStr "contributor_id" ""
    timestamp := j.vInt "timestamp" 0
    version := j.vInt "version" 0
    tags := j.vStrList "tags" }

/-! ### Context builder — src/common/agent/conversation.cpp lines 13-34, 246-375

File I/O is abstracted by an environment `env : String → Option String` giving
the content of a file path when it can be opened.  `get_thread`'s existence/TTL
check happens before the body modelled here; the claims quantify over the found
thread. -/

/-- `token_estimator::estimate_tokens` (conversation.cpp lines 15-19):
`length / 4` (the empty-string early return also yields 0). -/
def estimateTokens (s : String) : Nat :=
  s.length / 4

/-- `token_estimator::estimate_turn_tokens` (conversation.cpp lines 30-34). -/
def estimateTurnTokens (t : ConversationTurn) : Nat :=
  estimateTokens t.content + (estimateTokens t.role + 10)

/-- `token_estimator::estimate_file_tokens` (conversation.cpp lines 21-28):
0 when the file cannot be opened. -/
def estimateFileTokens (env : String → Option String) (f : String) : Nat :=
  match env f with
  | some c => estimateTokens c
  | Option.none => 0

/-- Inner loop of the file collection (conversation.cpp lines 284-291):
append each referenced file unless already collected. -/
def addFiles (acc : List String) : List String → List String
  | [] => acc
  | f :: fs => addFiles (if f ∈ acc then acc else acc ++ [f]) fs

/-- Files referenced by any turn, newest turn first, first occurrence kept
(conversation.cpp lines 284-291). -/
def collectAllFiles (turns : List ConversationTurn) : List String :=
  turns.reverse.foldl (fun acc t => addFiles acc t.files) []

structure FilesPass where
  included : List String
  fileTokens : Int
  truncated : Bool
  text : String
deriving Repr

/-- The file-inclusion loop (conversation.cpp lines 294-317).  `totalTokens` is
the `total_tokens` local, which is 0 throughout this loop (it is only
incremented after the loop), mirrored here as an unchanging parameter.  A file
whose estimate pushes `total_tokens + est` past `max_tokens / 2` sets
`truncated` and stops; a file that does not open still emits its frame but is
not counted or listed. -/
def includeFilesLoop (maxT : Int) (env : String → Option String)
    (totalTokens : Int) : List String → FilesPass
  | [] => ⟨[], 0, false, ""⟩
  | f :: fs =>
    let est : Int := estimateFileTokens env f
    if maxT > 0 ∧ totalTokens + est > maxT / 2 then
      ⟨[], 0, true, ""⟩
    else
      let body := match env f with | some c => c | Option.none => ""
      let frame := "\n--- File: " ++ f ++ " ---\n" ++ body ++ "\n--- End File ---\n"
      let rest := includeFilesLoop maxT env totalTokens fs
      match env f with
      | some _ => ⟨f :: rest.included, est + rest.fileTokens, rest.truncated,
                   frame ++ rest.text⟩
      | Option.none => ⟨rest.included, rest.fileTokens, rest.truncated,
                        frame ++ rest.text⟩

/-- The whole file section of the builder (conversation.cpp lines 294-319):
run only when `include_files` and some file is referenced. -/
def filesPass (th : ConversationThread) (maxT : Int) (incF : Bool)
    (env : String → Option String) : FilesPass :=
  let allFiles := collectAllFiles th.turns
  if incF ∧ allFiles ≠ [] then
    let fp := includeFilesLoop maxT env 0 allFiles
    { fp with text := "Referenced Files:\n" ++ fp.text ++ "\n" }
  else
    ⟨[], 0, false, ""⟩

/-- The turn-collection loop (conversation.cpp lines 327-339): walk the turns
newest first, accumulate while the budget admits the next turn, stop and set
`truncated` at the first turn that would exceed.  Returns the collected turns
(newest first), the final `total_tokens`, and the truncation flag. -/
def collectTurns (maxT : Int) :
    Int → List ConversationTurn → List ConversationTurn × Int × Bool
  | tok, [] => ([], tok, false)
  | tok, t :: rest =>
    let tt : Int := estimateTurnTokens t
    if maxT > 0 ∧ tok + tt > maxT then
      ([], tok, true)
    else
      let r := collectTurns maxT (tok + tt) rest
      (t :: r.1, r.2.1, r.2.2)

def commaSep : List String → String
  | [] => ""
  | [f] => f
  | f :: fs => f ++ ", " ++ commaSep fs

/-- A single turn as emitted (conversation.cpp lines 344-362). -/
def renderTurn (t : ConversationTurn) : String :=
  "\n[" ++ t.role ++ "]" ++
  (if t.agentId ≠ "" then " (agent: " ++ t.agentId ++ ")" else "") ++
  (if t.model ≠ "" then " (model: " ++ t.model ++ ")" else "") ++
  ":\n" ++ t.content ++ "\n" ++
  (if t.files ≠ [] then "  Files: " ++ commaSep t.files ++ "\n" else "")

/-- Header block (conversation.cpp lines 270-272). -/
def contextHeaderText (th : ConversationThread) : String :=
  "=== Conversation Thread: " ++ th.threadId ++ " ===\n" ++
  "Initiated by: " ++ th.initiatingAgent ++ "\n" ++
  "Created: " ++ toString th.createdAt ++ "\n\n"

/-- Initial-context block (conversation.cpp lines 275-281). -/
def initialContextText (th : ConversationThread) : String :=
  if th.context = [] then ""
  else
    "Initial Context:\n" ++
    String.join (th.context.map fun kv => "  " ++ kv.1 ++ ": " ++ kv.2 ++ "\n") ++
    "\n"

/-- The turns selected for inclusion, in the order they are emitted
(collected newest first at conversation.cpp lines 327-339, then reversed to
chronological order at line 342). -/
def includedTurns (th : ConversationThread) (maxT : Int) (incF : Bool)
    (env : String → Option String) : List ConversationTurn :=
  ((collectTurns maxT (filesPass th maxT incF env).fileTokens th.turns.reverse).1).reverse

/-- `reconstructed_context` (conversation.h). -/
structure ReconstructedContext where
  fullContext : String
  tokensUsed : Int
  turnsIncluded : Nat
  filesIncluded : List String
  truncated : Bool
deriving Repr

/-- The text emitted after the turn selection: section header, the selected
turns in chronological order, and the truncation notice
(conversation.cpp lines 321-366). -/
def historyTailText (included : List ConversationTurn) (truncated : Bool) : String :=
  "Conversation History:\n" ++
  String.join (included.map renderTurn) ++
  (if truncated then "\n[Note: Context was truncated due to token budget]\n" else "")

/-- `conversation_memory::build_conversation_history` (conversation.cpp lines
246-375) on a found, unexpired thread. -/
def buildConversationHistory (th : ConversationThread) (maxT : Int)
    (incF : Bool) (env : String → Option String) : ReconstructedContext :=
  let fp := filesPass th maxT incF env
  let ct := collectTurns maxT fp.fileTokens th.turns.reverse
  let included := ct.1.reverse
  let truncated := fp.truncated || ct.2.2
  { fullContext :=
      contextHeaderText th ++ initialContextText th ++ fp.text ++
      historyTailText included truncated
    tokensUsed := ct.2.1
    turnsIncluded := included.length
    filesIncluded := fp.included
    truncated := truncated }

/-! ### Association-list helpers for std::map / std::unordered_map state -/

def alookup {α : Type} (k : String) : List (String × α) → Option α
  | [] => Option.none
  | (k2, v) :: rest => if k2 = k then some v else alookup k rest

/-- Update the value at `k` in place when present (std::map::operator[] on an
existing key). -/
def aupdate {α : Type} (k : String) (f : α → α) :
    List (String × α) → List (String × α)
  | [] => []
  | (k2, v) :: rest =>
    if k2 = k then (k2, f v) :: rest else (k2, v) :: aupdate k f rest

/-- Insert or overwrite: existing keys keep their position, new keys are
appended (map insertion; for std::unordered_map the physical order is
unspecified — the theorems below do not depend on it except where a comment
says so). -/
def ainsert {α : Type} (k : String) (v : α) (l : List (String × α)) :
    List (String × α) :=
  match alookup k l with
  | some _ => aupdate k (fun _ => v) l
  | Option.none => l ++ [(k, v)]

/-! ### Task scheduler — src/tools/server/agent-collab.cpp lines 405-574

The fields of `agent_task` / `task_result` that the scheduler logic reads are
modelled; payload fields (description, parameters, timestamps, ...) are along
for the ride in the C++ struct and are dropped here.  `task_queue` is a
`std::vector` maintained as a binary heap by `push_heap`/`make_heap`; the model
keeps it as a list in insertion order — the heap operations permute the vector,
and every property proved below is invariant under permutation of the queue.
The `dependencies` member map written by `submit` is never read by any modelled
operation (`can_execute` walks `task.dependencies` directly), so it is not
carried in the state.  Uninitialized scalar fields of the `task_result`
synthesized by `fail_task` are modelled as zero / empty; no claim depends on
them. -/

inductive TaskStatus where
  | pending
  | assigned
  | executing
  | completed
  | failed
  | cancelled
deriving DecidableEq, Repr

structure AgentTask where
  taskId : String
  dependencies : List String
  requiredRoles : List String
  priority : Int
  status : TaskStatus
  assignedAgentId : String
deriving DecidableEq, Repr

structure TaskResult where
  taskId : String
  agentId : String
  result : String
  success : Bool
  errorMessage : String
  durationMs : Int
deriving DecidableEq, Repr

structure SchedState where
  taskMap : List (String × AgentTask)
  taskQueue : List AgentTask
  results : List (String × TaskResult)
  dependents : List (String × List String)
deriving DecidableEq, Repr

def SchedState.init : SchedState := ⟨[], [], [], []⟩

/-- `task_scheduler::can_execute` (agent-collab.cpp lines 551-560): every
dependency must be present in `task_map` with status completed. -/
def canExecute (m : List (String × AgentTask)) (t : AgentTask) : Bool :=
  t.dependencies.all fun d =>
    match alookup d m with
    | some dt => dt.status = .completed
    | Option.none => false

/-- `dependents[dep].insert(task_id)` (std::unordered_set: no duplicates). -/
def addDependent (ds : List (String × List String)) (dep id : String) :
    List (String × List String) :=
  match alookup dep ds with
  | some l => ainsert dep (if id ∈ l then l else l ++ [id]) ds
  | Option.none => ds ++ [(dep, [id])]

/-- `task_scheduler::submit` (agent-collab.cpp lines 405-423): store the task
(overwriting any task of the same id), register it with its dependencies'
dependent sets, and enqueue it if `can_execute` already holds (checked against
the updated map). -/
def SchedState.submit (st : SchedState) (t : AgentTask) : SchedState :=
  let m := ainsert t.taskId t st.taskMap
  let ds := t.dependencies.foldl (fun acc dep => addDependent acc dep t.taskId)
    st.dependents
  { st with
    taskMap := m
    dependents := ds
    taskQueue := if canExecute m t then st.taskQueue ++ [t] else st.taskQueue }

/-- The role filter of `get_next_task` (agent-collab.cpp lines 433-451):
no required roles, or some agent role among them. -/
def roleMatch (roles : List String) (t : AgentTask) : Bool :=
  t.requiredRoles = [] ∨ roles.any fun r => r ∈ t.requiredRoles

/-- Scan the queue for the first role-matching task, returning it and the
queue with that occurrence removed. -/
def findFirstMatch (roles : List String) :
    List AgentTask → Option (AgentTask × List AgentTask)
  | [] => Option.none
  | t :: rest =>
    if roleMatch roles t then some (t, rest)
    else
      match findFirstMatch roles rest with
      | some (f, q) => some (f, t :: q)
      | Option.none => Option.none

/-- `task_scheduler::get_next_task` (agent-collab.cpp lines 425-455). -/
def SchedState.getNextTask (st : SchedState) (roles : List String) :
    Option AgentTask × SchedState :=
  match findFirstMatch roles st.taskQueue with
  | some (t, q) => (some t, { st with taskQueue := q })
  | Option.none => (Option.none, st)

/-- `task_scheduler::update_status` (agent-collab.cpp lines 457-468). -/
def SchedState.updateStatus (st : SchedState) (id : String) (s : TaskStatus)
    (agentId : String) : SchedState :=
  { st with taskMap := aupdate id (fun t =>
      { t with status := s,
               assignedAgentId := if agentId ≠ "" then agentId
                                  else t.assignedAgentId }) st.taskMap }

/-- `task_scheduler::complete_task` + `notify_dependents` (agent-collab.cpp
lines 470-481, 562-574): mark completed, store the result, then enqueue every
registered dependent that is now executable. -/
def SchedState.completeTask (st : SchedState) (id : String) (res : TaskResult) :
    SchedState :=
  match alookup id st.taskMap with
  | Option.none => st
  | some _ =>
    let m := aupdate id (fun t => { t with status := .completed }) st.taskMap
    let depIds := (alookup id st.dependents).getD []
    let q := depIds.foldl (fun q did =>
        match alookup did m with
        | some t => if canExecute m t then q ++ [t] else q
        | Option.none => q) st.taskQueue
    { st with taskMap := m, taskQueue := q, results := ainsert id res st.results }

/-- `task_scheduler::fail_task` (agent-collab.cpp lines 483-496): mark failed
and synthesize an unsuccessful result.  The queue and the dependents are left
untouched. -/
def SchedState.failTask (st : SchedState) (id err : String) : SchedState :=
  match alookup id st.taskMap with
  | Option.none => st
  | some _ =>
    { st with
      taskMap := aupdate id (fun t => { t with status := .failed }) st.taskMap
      results := ainsert id ⟨id, "", "", false, err, 0⟩ st.results }

/-- `task_scheduler::cancel_task` (agent-collab.cpp lines 520-533): mark
cancelled and remove every queue entry with that id. -/
def SchedState.cancelTask (st : SchedState) (id : String) : SchedState :=
  match alookup id st.taskMap with
  | Option.none => st
  | some _ =>
    { st with
      taskMap := aupdate id (fun t => { t with status := .cancelled }) st.taskMap
      taskQueue := st.taskQueue.filter (fun t => ¬ t.taskId = id) }

/-- States reachable through the public scheduler interface. -/
inductive SchedReach : SchedState → Prop where
  | init : SchedReach SchedState.init
  | submit (s : SchedState) (t : AgentTask) :
      SchedReach s → SchedReach (s.submit t)
  | getNext (s : SchedState) (roles : List String) :
      SchedReach s → SchedReach (s.getNextTask roles).2
  | update (s : SchedState) (id : String) (st2 : TaskStatus) (aid : String) :
      SchedReach s → SchedReach (s.updateStatus id st2 aid)
  | complete (s : SchedState) (id : String) (res : TaskResult) :
      SchedReach s → SchedReach (s.completeTask id res)
  | fail (s : SchedState) (id err : String) :
      SchedReach s → SchedReach (s.failTask id err)
  | cancel (s : SchedState) (id : String) :
      SchedReach s → SchedReach (s.cancelTask id)

/-- A task has all dependencies completed in map `m`. -/
def depsCompleted (m : List (String × AgentTask)) (t : AgentTask) : Prop :=
  ∀ d ∈ t.dependencies,
    ∃ dt, alookup d m = some dt ∧ dt.status = TaskStatus.completed

/-- The normal task lifecycle: submissions use fresh ids and statuses are
driven only by `get_next_task` and `complete_task` — the regime under which
the DAG dispatch invariant is provable. -/
inductive SchedReachOK : SchedState → Prop where
  | init : SchedReachOK SchedState.init
  | submit (s : SchedState) (t : AgentTask) :
      SchedReachOK s → alookup t.taskId s.taskMap = Option.none →
      SchedReachOK (s.submit t)
  | getNext (s : SchedState) (roles : List String) :
      SchedReachOK s → SchedReachOK (s.getNextTask roles).2
  | complete (s : SchedState) (id : String) (res : TaskResult) :
      SchedReachOK s → SchedReachOK (s.completeTask id res)

/-! ### Consensus — src/tools/server/agent-collab.cpp lines 580-719

`consensus_vote.votes` is a `std::map` (iterated in agent-id order);
`counts` in `calculate_result` is a `std::unordered_map`, whose iteration
order is unspecified — the model uses first-insertion order, and every theorem
below either does not depend on that order or says so explicitly.  Vote
weights (C++ float) are modelled as `Rat`; the thresholds 0.5f and the exact
comparisons at the concrete inputs used below coincide with the float
computation. -/

inductive ConsensusType where
  | simpleMajority
  | supermajority
  | unanimous
  | weighted
deriving DecidableEq, Repr

structure ConsensusVote where
  voteId : String
  question : String
  options : List String
  ctype : ConsensusType
  votes : List (String × String)
  weights : List (String × Rat)
  deadline : Int
  result : String
  finalized : Bool
deriving DecidableEq, Repr

/-- The per-agent weight used by `calculate_result` (agent-collab.cpp lines
681-691): 1 unless the rule is weighted, then `weights[agent]` with default
1 when absent. -/
def voteWeight (v : ConsensusVote) (agent : String) : Rat :=
  if v.ctype = .weighted then (alookup agent v.weights).getD 1 else 1

/-- `counts[option] += weight` on an association list: existing options keep
their position, new options are appended. -/
def addCount (counts : List (String × Rat)) (opt : String) (w : Rat) :
    List (String × Rat) :=
  match counts with
  | [] => [(opt, w)]
  | (o, c) :: rest =>
    if o = opt then (o, c + w) :: rest else (o, c) :: addCount rest opt w

/-- The per-option weighted counts (agent-collab.cpp lines 678-691). -/
def tallyCounts (v : ConsensusVote) : List (String × Rat) :=
  v.votes.foldl (fun cs av => addCount cs av.2 (voteWeight v av.1)) []

/-- The total weight accumulated in the same loop. -/
def totalWeight (v : ConsensusVote) : Rat :=
  v.votes.foldl (fun s av => s + voteWeight v av.1) 0

/-- The winner scan (agent-collab.cpp lines 694-702): start from ("", 0) and
replace on a strictly greater count. -/
def codeWinner (counts : List (String × Rat)) : String × Rat :=
  counts.foldl (fun wm oc => if oc.2 > wm.2 then oc else wm) ("", 0)

/-- `consensus_manager::calculate_result` (agent-collab.cpp lines 672-719). -/
def calculateResult (v : ConsensusVote) : String :=
  if v.votes = [] then ""
  else
    let wm := codeWinner (tallyCounts v)
    let total := totalWeight v
    let pct : Rat := if total > 0 then wm.2 / total else 0
    match v.ctype with
    | .simpleMajority => if pct > 1 / 2 then wm.1 else ""
    | .supermajority => if pct ≥ 33 / 50 then wm.1 else ""
    | .unanimous => if pct ≥ 1 then wm.1 else ""
    | .weighted => wm.1

/-- The result described by the specification sentence, modelled from the
spec for comparison with `calculateResult`: the winner is the option with the
greatest weighted count, ties broken by the lexicographically smallest option
id, and the rule thresholds gate the winner. -/
def specWinner : List (String × Rat) → String × Rat
  | [] => ("", 0)
  | [oc] => oc
  | oc :: rest =>
    let wm := specWinner rest
    if oc.2 > wm.2 ∨ (oc.2 = wm.2 ∧ oc.1 < wm.1) then oc else wm

/-- Modelled from the spec: the claimed tally result. -/
def specCalculateResult (v : ConsensusVote) : String :=
  if v.votes = [] then ""
  else
    let wm := specWinner (tallyCounts v)
    let total := totalWeight v
    let pct : Rat := if total > 0 then wm.2 / total else 0
    match v.ctype with
    | .simpleMajority => if pct > 1 / 2 then wm.1 else ""
    | .supermajority => if pct ≥ 33 / 50 then wm.1 else ""
    | .unanimous => if pct = 1 then wm.1 else ""
    | .weighted => wm.1

structure ConsensusState where
  votes : List (String × ConsensusVote)
deriving DecidableEq, Repr

/-- `consensus_manager::finalize_vote` (agent-collab.cpp lines 642-659): look
up the ballot; fail when missing or already finalized; otherwise store the
tally result and set `finalized`.  The `eligible_agents` parameter is carried
exactly as in the C++ signature. -/
def finalizeVote (st : ConsensusState) (voteId : String)
    (eligibleAgents : List String) : Bool × ConsensusState :=
  match alookup voteId st.votes with
  | Option.none => (false, st)
  | some v =>
    if v.finalized then (false, st)
    else
      (true, ⟨aupdate voteId
        (fun v0 => { v0 with result := calculateResult v0, finalized := true })
        st.votes⟩)

/-! ### Mailbox — src/common/agent/message.cpp lines 200-268

`pop` with a positive timeout waits on the condition variable for
`!queue.empty() || shutdown`; in the sequential model no other thread runs
during the wait, so the wait succeeds exactly when the predicate already
holds, and times out otherwise.  Both paths then run the final check of
lines 246-248. -/

structure MsgQueue where
  queue : List AgentMessage
  maxSize : Nat
  shutdown : Bool
deriving DecidableEq, Repr

/-- `message_queue::push` (message.cpp lines 218-226): reject only on
capacity. -/
def MsgQueue.push (q : MsgQueue) (m : AgentMessage) : Bool × MsgQueue :=
  if q.queue.length ≥ q.maxSize then (false, q)
  else (true, { q with queue := q.queue ++ [m] })

/-- The tail of `message_queue::pop` (message.cpp lines 246-252): fail under
shutdown or an empty queue, otherwise dequeue the front. -/
def MsgQueue.popFinal (q : MsgQueue) : Option AgentMessage × MsgQueue :=
  if q.shutdown ∨ q.queue = [] then (Option.none, q)
  else
    match q.queue with
    | [] => (Option.none, q)
    | m :: rest => (some m, { q with queue := rest })

/-- `message_queue::pop` (message.cpp lines 228-253). -/
def MsgQueue.pop (q : MsgQueue) (timeoutMs : Int) : Option AgentMessage × MsgQueue :=
  if timeoutMs ≤ 0 then
    if q.queue = [] then (Option.none, q) else q.popFinal
  else
    if q.queue = [] ∧ ¬ q.shutdown then (Option.none, q) else q.popFinal

/-! ### ggml-agent actor lifecycle and supervisor —
src/ggml/src/ggml-agent/ggml-agent.cpp lines 96-457

The worker thread is folded into a sequential model: `start` spawns `run`
(which immediately sets state RUNNING) and blocks until that happens, so its
net effect is the CREATED → RUNNING transition — and nothing at all from any
other state, because the compare-exchange at lines 116-119 only fires from
CREATED.  `stop` moves any live state to STOPPING and raises `should_stop`;
the worker loop then exits and `run` stores STOPPED, which has happened by the
time `join` returns.  `workerLive` tracks whether a worker thread exists to be
joined. -/

inductive GgmlAgentState where
  | created
  | starting
  | running
  | stopping
  | stopped
  | failed
deriving DecidableEq, Repr

structure GAgent where
  id : String
  state : GgmlAgentState
  shouldStop : Bool
  workerLive : Bool
deriving DecidableEq, Repr

/-- A freshly constructed agent (state field initializer in ggml-agent.h). -/
def GAgent.mk0 (id : String) : GAgent :=
  ⟨id, .created, false, false⟩

/-- `ggml_agent::start` (ggml-agent.cpp lines 115-136): compare-exchange
CREATED → STARTING, spawn the worker (which sets RUNNING), wait for RUNNING;
from any other state, return immediately. -/
def GAgent.start (a : GAgent) : GAgent :=
  if a.state = .created then
    { a with state := .running, shouldStop := false, workerLive := true }
  else a

/-- `ggml_agent::stop` (ggml-agent.cpp lines 138-147). -/
def GAgent.stop (a : GAgent) : GAgent :=
  if a.state = .stopped ∨ a.state = .stopping then a
  else { a with state := .stopping, shouldStop := true }

/-- `ggml_agent::join` (ggml-agent.cpp lines 149-153) together with the
worker's exit path (lines 185-222): when a worker exists and has been told to
stop, joining observes the `state = STOPPED` store at the end of `run`. -/
def GAgent.join (a : GAgent) : GAgent :=
  if a.workerLive ∧ a.shouldStop then
    { a with state := .stopped, workerLive := false }
  else a

inductive RestartStrategy where
  | oneForOne
  | oneForAll
  | restForOne
deriving DecidableEq, Repr

structure GSupervisor where
  children : List GAgent
  strategy : RestartStrategy
  maxRestarts : Nat
  maxRestartWindowMs : Int
  restartHistory : List (String × List Int)
deriving DecidableEq, Repr

/-- `ggml_agent_supervisor::restart_child` (ggml-agent.cpp lines 405-415):
stop → join → start the first child with the given id; all others untouched. -/
def restartChildInList (childId : String) : List GAgent → List GAgent
  | [] => []
  | c :: rest =>
    if c.id = childId then c.stop.join.start :: rest
    else c :: restartChildInList childId rest

/-- `ggml_agent_supervisor::restart_all_children` (ggml-agent.cpp lines
417-428): stop all, join all, start all. -/
def restartAllInList (cs : List GAgent) : List GAgent :=
  ((cs.map GAgent.stop).map GAgent.join).map GAgent.start

/-- The REST_FOR_ONE arm of `handle_child_failure` (ggml-agent.cpp lines
365-379): once the failed child is found, it and every later child is
stop/join/started in order. -/
def restartRestInList (childId : String) (found : Bool) :
    List GAgent → List GAgent
  | [] => []
  | c :: rest =>
    if found ∨ c.id = childId then
      c.stop.join.start :: restartRestInList childId true rest
    else c :: restartRestInList childId found rest

/-- `ggml_agent_supervisor::should_restart` (ggml-agent.cpp lines 384-403):
prune the child's restart timestamps older than the window; refuse when the
count still reaches `max_restarts`, otherwise record `now` and allow. -/
def shouldRestart (sup : GSupervisor) (now : Int) (childId : String) :
    Bool × GSupervisor :=
  let hist := (alookup childId sup.restartHistory).getD []
  let pruned := hist.filter fun ts => ¬ now - ts > sup.maxRestartWindowMs
  if pruned.length ≥ sup.maxRestarts then
    (false, { sup with restartHistory := ainsert childId pruned sup.restartHistory })
  else
    (true, { sup with
      restartHistory := ainsert childId (pruned ++ [now]) sup.restartHistory })

/-- `ggml_agent_supervisor::handle_child_failure` (ggml-agent.cpp lines
356-382). -/
def handleChildFailure (sup : GSupervisor) (now : Int) (childId : String) :
    GSupervisor :=
  let r := shouldRestart sup now childId
  if r.1 then
    match r.2.strategy with
    | .oneForOne =>
      { r.2 with children := restartChildInList childId r.2.children }
    | .oneForAll =>
      { r.2 with children := restartAllInList r.2.children }
    | .restForOne =>
      { r.2 with children := restartRestInList childId false r.2.children }
  else r.2

/-! ### Concrete sample values used by counterexamples and witnesses -/

def sampleMsg : AgentMessage :=
  ⟨"m1", "agentA", "agentB", .request, "", "", 0, 5, []⟩

/-- A drained mailbox with spare capacity. -/
def shutEmptyQueue : MsgQueue := ⟨[], 10, true⟩

/-- A drained mailbox still holding a message. -/
def shutFullQueue : MsgQueue := ⟨[sampleMsg], 5, true⟩

def workerW1 : GAgent := ⟨"w1", .running, false, true⟩

def workerW2 : GAgent := ⟨"w2", .running, false, true⟩

/-- Supervisor from scenario S3: strategy one_for_one, max_restarts 3,
window 60 s, two running children, no restart history. -/
def supS3 : GSupervisor := ⟨[workerW1, workerW2], .oneForOne, 3, 60000, []⟩

def okResp : PolicyResponse := ⟨.success, .none⟩

def authFailResp : PolicyResponse := ⟨.error, .authentication⟩

def unavailableResp : PolicyResponse := ⟨.error, .unavailable⟩

/-- Primary behaviour that fails with a non-retryable kind once, then
succeeds. -/
def oneAuthFailure : Nat → PolicyResponse :=
  fun k => if k = 0 then authFailResp else okResp

def alwaysUnavailable : Nat → PolicyResponse := fun _ => unavailableResp

def c3policy : FailurePolicy :=
  { maxRetries := 1, retryDelayMs := 10, backoffMultiplier := 2,
    maxRetryDelayMs := 100, timeoutMs := 1000, enableFailover := false,
    fallbackAgents := [], logFailures := true }

/-- Policy with the fractional multiplier 1.5 (exactly representable as a
float) that exposes the integer truncation in the backoff computation. -/
def c4policy : FailurePolicy :=
  { maxRetries := 2, retryDelayMs := 500, backoffMultiplier := 3 / 2,
    maxRetryDelayMs := 10000, timeoutMs := 1000, enableFailover := false,
    fallbackAgents := [], logFailures := true }

/-- Scenario S6: retries with failover to agent B enabled. -/
def s6policy : FailurePolicy :=
  { maxRetries := 2, retryDelayMs := 10, backoffMultiplier := 2,
    maxRetryDelayMs := 100, timeoutMs := 1000, enableFailover := true,
    fallbackAgents := ["B"], logFailures := true }

/-- A weighted ballot with a single vote of weight zero. -/
def zeroWeightBallot : ConsensusVote :=
  ⟨"v1", "q", ["x"], .weighted, [("a1", "x")], [("a1", 0)], 0, "", false⟩

/-- Scenario S5: supermajority, casts yes/yes/no with weight 1 each. -/
def superBallot : ConsensusVote :=
  ⟨"v2", "q", ["yes", "no"], .supermajority,
   [("a1", "yes"), ("a2", "yes"), ("a3", "no")],
   [("a1", 1), ("a2", 1), ("a3", 1)], 0, "", false⟩

def taskA : AgentTask := ⟨"A", [], [], 5, .pending, ""⟩

def taskB : AgentTask := ⟨"B", ["A"], [], 5, .pending, ""⟩

def resA : TaskResult := ⟨"A", "agentA", "done", true, "", 0⟩

/-- The scheduler trace refuting the dispatch claim: submit A and B (B depends
on A), dispatch A, complete A — releasing B into the queue — then fail A. -/
def schedTrace : SchedState :=
  ((((SchedState.init.submit taskA).submit taskB).getNextTask
    ["dev"]).2.completeTask "A" resA).failTask "A" "boom"

/-- One fresh submission, for the witness. -/
def schedOne : SchedState := SchedState.init.submit taskA

def failRecTimeout : FailureRecord :=
  ⟨"agentA", .timeout, "timed out", 42, "t1", "m1", 2, false, "agentB"⟩

/-- An empty thread, for the context-builder witness. -/
def emptyThread : ConversationThread :=
  ⟨"t0", "", 0, 0, "agentA", [], 1000, []⟩

end AgentSpec

namespace AgentSpec

/-! ## Theorems -/

/-! ### C10 — finalization ignores eligibility -/

/-- Claim C10: for every consensus store, ballot id and any two lists of
eligible agents, `finalize_vote` returns the same success flag and the same
final state — the `eligible_agents` argument has no influence on the tally
denominator or on which votes are counted. -/
theorem c10_finalize_ignores_eligible (st : ConsensusState) (vid : String)
    (e1 e2 : List String) :
    finalizeVote st vid e1 = finalizeVote st vid e2 := rfl

/-! ### C9 — mailbox shutdown contract -/

/-- Claim C9 counterexample: the claim says every `push` on a drained mailbox
is rejected; but `message_queue::push` never consults the shutdown flag — on a
drained mailbox with spare capacity it returns true and enqueues the
message. -/
theorem c9_push_accepted_after_shutdown :
    shutEmptyQueue.push sampleMsg =
      (true, { shutEmptyQueue with queue := [sampleMsg] }) := by
  decide

/-- Claim C9 (amended): once the mailbox is drained (`shutdown` set), every
`pop` returns (no message, false) immediately regardless of timeout and leaves
the state unchanged; `push`, however, ignores the drained state — it is
accepted exactly when capacity remains. -/
theorem c9_shutdown_contract (q : MsgQueue) (h : q.shutdown = true) :
    (∀ timeoutMs : Int, q.pop timeoutMs = (Option.none, q)) ∧
    (∀ m : AgentMessage,
      (q.push m).1 = true ↔ q.queue.length < q.maxSize) := by
  constructor
  · intro timeoutMs
    simp only [MsgQueue.pop, MsgQueue.popFinal, h]
    by_cases ht : timeoutMs ≤ 0 <;> by_cases hq : q.queue = [] <;> simp [ht, hq]
  · intro m
    simp only [MsgQueue.push]
    split_ifs with hc <;> simp <;> omega

/-- Witness for C9 at a concrete drained mailbox holding one message with
spare capacity: pop yields nothing and push is accepted. -/
theorem c9_shutdown_contract_witness :
    shutFullQueue.pop 100 = (Option.none, shutFullQueue) ∧
    (shutFullQueue.push sampleMsg).1 = true :=
  ⟨(c9_shutdown_contract shutFullQueue rfl).1 100,
   ((c9_shutdown_contract shutFullQueue rfl).2 sampleMsg).mpr (by decide)⟩

/-! ### C1 — supervisor one_for_one restart -/

/-- Claim C1, evaluated on the code at the failing input (scenario S3): a
supervisor with fresh restart budget handles a failure of running child w1
under one_for_one.  `restart_child` runs stop → join → start on exactly that
child, but `ggml_agent::start` only fires its compare-exchange from state
CREATED, so the stopped child stays STOPPED — it is not running again.  The
sibling w2 is untouched, as claimed. -/
theorem c1_restart_leaves_child_stopped :
    (handleChildFailure supS3 1000 "w1").children =
      [⟨"w1", .stopped, true, false⟩, workerW2] ∧
    ¬ ((handleChildFailure supS3 1000 "w1").children.map GAgent.state =
        [.running, .running]) := by
  decide

/-! ### C2 — circuit breaker state machine -/

/-- `record_failure` leaves an open breaker open (only the failure timestamp
moves). -/
theorem recordFailures_stay_open (ts : List Int) (b : Breaker)
    (hb : b.state = .«open») :
    (b.recordFailures ts).state = .«open» := by
  induction ts generalizing b with
  | nil => exact hb
  | cons t ts ih =>
    apply ih
    simp [Breaker.recordFailure, hb]

/-- From the closed state, a run of failures long enough to reach the
threshold opens the breaker. -/
theorem recordFailures_reach_open (ts : List Int) (b : Breaker)
    (hb : b.state = .closed)
    (h : b.failureThreshold ≤ b.failureCount + ts.length) (hne : ts ≠ []) :
    (b.recordFailures ts).state = .«open» := by
  induction ts generalizing b with
  | nil => exact absurd rfl hne
  | cons t ts ih =>
    simp only [Breaker.recordFailures, Breaker.recordFailure, hb]
    by_cases hthr : b.failureCount + 1 ≥ b.failureThreshold
    · simp only [hb, if_pos hthr, reduceIte]
      exact recordFailures_stay_open ts _ rfl
    · simp only [hb, if_neg hthr, reduceIte]
      apply ih
      · rfl
      · simp at h ⊢
        omega
      · intro hnil
        subst hnil
        simp at h
        omega

/-- Claim C2 (amended): starting closed, at least `failure_threshold` (> 0)
consecutive `record_failure` calls move the breaker to open; while open and
before `open_timeout_ms` has elapsed since the state change, `allow_request`
returns false; once the timeout has elapsed, the next `allow_request` returns
true and transitions to half_open; and while half_open is unresolved, EVERY
`allow_request` call returns true (the code places no single-probe limit). -/
theorem c2_breaker_contract :
    (∀ thr timeout sthr now0 : Int, ∀ ts : List Int,
      0 < thr → thr ≤ (ts.length : Int) →
      ((Breaker.mk0 thr timeout sthr now0).recordFailures ts).state = .«open») ∧
    (∀ (b : Breaker) (now : Int), b.state = .«open» →
      now - b.lastStateChange < b.timeoutMs → b.allowRequest now = (false, b)) ∧
    (∀ (b : Breaker) (now : Int), b.state = .«open» →
      now - b.lastStateChange ≥ b.timeoutMs →
      (b.allowRequest now).1 = true ∧
      (b.allowRequest now).2.state = .halfOpen ∧
      (b.allowRequest now).2.successCount = 0 ∧
      (b.allowRequest now).2.lastStateChange = now) ∧
    (∀ (b : Breaker) (now : Int), b.state = .halfOpen →
      b.allowRequest now = (true, b)) := by
  refine ⟨?_, ?_, ?_, ?_⟩
  · intro thr timeout sthr now0 ts hpos hlen
    apply recordFailures_reach_open ts _ rfl
    · simp [Breaker.mk0]
      omega
    · intro hnil
      subst hnil
      simp at hlen
      omega
  · intro b now hb hlt
    have hn : ¬ now - b.lastStateChange ≥ b.timeoutMs := by omega
    simp [Breaker.allowRequest, hb, hn]
  · intro b now hb hge
    simp [Breaker.allowRequest, hb, hge]
  · intro b now hb
    simp [Breaker.allowRequest, hb]

/-- Witness for C2 at scenario S2 figures (threshold 3, timeout 100 ms):
three failures open the breaker; a request before the timeout is refused; at
100 ms the breaker half-opens and allows; in half_open it allows. -/
theorem c2_breaker_contract_witness :
    ((Breaker.mk0 3 100 2 0).recordFailures [1, 2, 3]).state = .«open» :=
  c2_breaker_contract.1 3 100 2 0 [1, 2, 3] (by decide) (by decide)

/-- Claim C2 counterexample: the claim says that while half_open is unresolved
`allow_request` returns true exactly once.  Concretely (threshold 1, timeout
10): a failure at time 0 opens the breaker; `allow_request` at time 10
half-opens and returns true; a second `allow_request` at time 11 — with no
success or failure recorded in between — returns true AGAIN, and the breaker
is still half_open. -/
theorem c2_probe_counterexample :
    ((((Breaker.mk0 1 10 2 0).recordFailure 0).allowRequest 10).1 = true) ∧
    (((((Breaker.mk0 1 10 2 0).recordFailure 0).allowRequest 10).2.allowRequest
        11).1 = true) ∧
    (((((Breaker.mk0 1 10 2 0).recordFailure 0).allowRequest 10).2.allowRequest
        11).2.state = .halfOpen) := by
  decide

/-! ### Retry-loop lemmas shared by C3 and C4 -/

/-- At least one attempt is always made. -/
theorem retryLoop_attempts_ge (primary : Nat → PolicyResponse)
    (p : FailurePolicy) (k remaining : Nat) :
    k + 1 ≤ (retryLoop primary p k remaining).2.1 := by
  induction remaining generalizing k with
  | zero =>
    simp only [retryLoop]
    split <;> simp
  | succ n ih =>
    simp only [retryLoop]
    split
    · simp
    · have := ih (k + 1)
      simp only []
      omega

/-- The loop makes at most `remaining + 1` further attempts. -/
theorem retryLoop_attempts_le (primary : Nat → PolicyResponse)
    (p : FailurePolicy) (k remaining : Nat) :
    (retryLoop primary p k remaining).2.1 ≤ k + remaining + 1 := by
  induction remaining generalizing k with
  | zero =>
    simp only [retryLoop]
    split <;> simp
  | succ n ih =>
    simp only [retryLoop]
    split
    · simp
    · have := ih (k + 1)
      simp only []
      omega

/-- When every attempt fails, the loop runs to exhaustion and returns the last
attempt's response. -/
theorem retryLoop_allfail (primary : Nat → PolicyResponse) (p : FailurePolicy)
    (h : ∀ j, (primary j).status ≠ ResponseStatus.success) (k remaining : Nat) :
    (retryLoop primary p k remaining).1 = primary (k + remaining) ∧
    (retryLoop primary p k remaining).2.1 = k + remaining + 1 := by
  induction remaining generalizing k with
  | zero =>
    simp [retryLoop, h k]
  | succ n ih =>
    simp only [retryLoop]
    rw [if_neg (h k)]
    have := ih (k + 1)
    simp only []
    constructor
    · rw [this.1]
      congr 1
      omega
    · rw [this.2]
      omega

/-- The delays slept are exactly `codeDelay` at the attempt indices before the
last attempt, in order. -/
theorem retryLoop_sleeps (primary : Nat → PolicyResponse) (p : FailurePolicy)
    (k remaining : Nat) :
    (retryLoop primary p k remaining).2.2 =
      (List.range' k ((retryLoop primary p k remaining).2.1 - k - 1)).map
        (codeDelay p) := by
  induction remaining generalizing k with
  | zero =>
    simp only [retryLoop]
    split <;> simp
  | succ n ih =>
    simp only [retryLoop]
    split
    · simp
    · have hge := retryLoop_attempts_ge primary p (k + 1) n
      have hs := ih (k + 1)
      simp only []
      rw [hs]
      have hn : (retryLoop primary p (k + 1) n).2.1 - k - 1 =
          ((retryLoop primary p (k + 1) n).2.1 - (k + 1) - 1) + 1 := by omega
      rw [hn, List.range'_succ, List.map_cons]

/-- The failover scan returns the first success in list order. -/
theorem firstFallbackSuccess_found (fallback : String → PolicyResponse)
    (pre : List String) (id : String) (post : List String)
    (hpre : ∀ x ∈ pre, (fallback x).status ≠ ResponseStatus.success)
    (hid : (fallback id).status = ResponseStatus.success) :
    firstFallbackSuccess fallback (pre ++ id :: post) = some (fallback id) := by
  induction pre with
  | nil =>
    simp [firstFallbackSuccess, hid]
  | cons x xs ih =>
    have hx : (fallback x).status ≠ ResponseStatus.success := by
      apply hpre
      simp
    simp only [List.cons_append, firstFallbackSuccess]
    rw [if_neg hx]
    apply ih
    intro y hy
    apply hpre
    simp [hy]

/-- When no fallback succeeds the scan finds nothing. -/
theorem firstFallbackSuccess_none (fallback : String → PolicyResponse)
    (l : List String)
    (h : ∀ x ∈ l, (fallback x).status ≠ ResponseStatus.success) :
    firstFallbackSuccess fallback l = Option.none := by
  induction l with
  | nil => rfl
  | cons x xs ih =>
    have hx : (fallback x).status ≠ ResponseStatus.success := by
      apply h
      simp
    simp only [firstFallbackSuccess]
    rw [if_neg hx]
    apply ih
    intro y hy
    apply h
    simp [hy]

/-! ### C3 — retry eligibility -/

/-- Claim C3 counterexample: the claim says a failure of a kind outside
{timeout, connection, unavailable, overload} fails fast — no further attempt,
no backoff sleep.  Concretely, with max_retries = 1 and a first attempt
failing with kind authentication (not retryable per `can_handle`),
`send_request_with_policy` still makes a second attempt and sleeps once:
the retry loop never consults the error kind. -/
theorem c3_failfast_counterexample :
    retryCanHandle ErrorType.authentication = false ∧
    (sendRequestWithPolicy oneAuthFailure (fun _ => okResp)
        c3policy).primaryAttempts = 2 ∧
    (sendRequestWithPolicy oneAuthFailure (fun _ => okResp)
        c3policy).sleeps = [10] := by
  have hstep : retryLoop oneAuthFailure c3policy 0 1 =
      (okResp, 2, [codeDelay c3policy 0]) := by
    simp [retryLoop, oneAuthFailure, authFailResp, okResp]
  have hd0 : codeDelay c3policy 0 = 10 := by
    simp [codeDelay, c3policy]
  have hatt : (sendRequestWithPolicy oneAuthFailure (fun _ => okResp)
      c3policy).primaryAttempts = (retryLoop oneAuthFailure c3policy 0 1).2.1 :=
    rfl
  have hsl : (sendRequestWithPolicy oneAuthFailure (fun _ => okResp)
      c3policy).sleeps = (retryLoop oneAuthFailure c3policy 0 1).2.2 := rfl
  refine ⟨by decide, ?_, ?_⟩
  · rw [hatt, hstep]
  · rw [hsl, hstep]
    simp [hd0]

/-- Claim C3 (amended): `retry_handler::can_handle` accepts exactly the kinds
timeout, connection, unavailable and overload; but
`send_request_with_policy` never consults it — every non-success response is
retried up to max_retries regardless of its error kind, so an always-failing
agent of any kind receives max_retries + 1 attempts. -/
theorem c3_retry_kinds :
    (∀ t : ErrorType, retryCanHandle t = true ↔
      (t = ErrorType.timeout ∨ t = ErrorType.connection ∨
       t = ErrorType.unavailable ∨ t = ErrorType.overload)) ∧
    (∀ (p : FailurePolicy) (primary : Nat → PolicyResponse)
       (fallback : String → PolicyResponse),
      (∀ k, (primary k).status ≠ ResponseStatus.success) →
      (sendRequestWithPolicy primary fallback p).primaryAttempts =
        p.maxRetries + 1) := by
  constructor
  · intro t
    cases t <;> decide
  · intro p primary fallback h
    have := (retryLoop_allfail primary p h 0 p.maxRetries).2
    simpa [sendRequestWithPolicy] using this

/-- Witness for C3: timeout is a retryable kind, and a concretely
always-failing agent under `c3policy` (max_retries = 1) is attempted twice. -/
theorem c3_retry_kinds_witness :
    retryCanHandle ErrorType.timeout = true ∧
    (sendRequestWithPolicy alwaysUnavailable (fun _ => okResp)
        c3policy).primaryAttempts = 2 := by
  refine ⟨(c3_retry_kinds.1 ErrorType.timeout).mpr (Or.inl rfl), ?_⟩
  have h := c3_retry_kinds.2 c3policy alwaysUnavailable (fun _ => okResp)
    (fun k => by simp [alwaysUnavailable, unavailableResp])
  simpa [c3policy] using h

/-! ### C4 — backoff schedule and failover order -/

/-- Claim C4 counterexample: the claim says the delay after failed attempt k
is min(retry_delay_ms × multiplier^k, cap).  With retry_delay 500 and
multiplier 1.5 the claimed delay after attempt 1 is 750 ms, but the code
truncates `pow` to an integer before multiplying
(registry.cpp lines 245-247), so it sleeps [500, 500], not [500, 750]. -/
theorem c4_backoff_counterexample :
    (sendRequestWithPolicy alwaysUnavailable (fun _ => okResp)
        c4policy).sleeps = [500, 500] ∧
    specDelay c4policy 1 = 750 ∧ ((500 : Rat) = 750 → False) := by
  have hall : ∀ k, (alwaysUnavailable k).status ≠ ResponseStatus.success :=
    fun k => by simp [alwaysUnavailable, unavailableResp]
  have hfloor32 : ⌊(3 / 2 : Rat)⌋ = 1 := by
    rw [Int.floor_eq_iff]
    norm_num
  have hd0 : codeDelay c4policy 0 = 500 := by
    simp [codeDelay, c4policy]
  have hd1 : codeDelay c4policy 1 = 500 := by
    simp [codeDelay, c4policy, hfloor32]
  refine ⟨?_, ?_, by norm_num⟩
  · have hsl : (sendRequestWithPolicy alwaysUnavailable (fun _ => okResp)
        c4policy).sleeps = (retryLoop alwaysUnavailable c4policy 0 2).2.2 := rfl
    have hs := retryLoop_sleeps alwaysUnavailable c4policy 0 2
    have ha := (retryLoop_allfail alwaysUnavailable c4policy hall 0 2).2
    rw [hsl, hs, ha]
    have hr : List.range' 0 (0 + 2 + 1 - 0 - 1) = [0, 1] := rfl
    rw [hr]
    simp [hd0, hd1]
  · simp only [specDelay, c4policy, pow_one]
    norm_num

/-- Claim C4 (amended): the delay slept after failed attempt k equals
min(retry_delay_ms × ⌊multiplier^k⌋, max_retry_delay_ms) — the multiplier
power is truncated to an integer before the multiplication; no sleep happens
after the final attempt (the number of sleeps is attempts − 1, each indexed by
its attempt); and once every attempt has failed, with failover enabled the
fallback agents are scanned in list order and the first success is returned,
otherwise the response of the last primary attempt is returned. -/
theorem c4_backoff_failover :
    (∀ (p : FailurePolicy) (primary : Nat → PolicyResponse)
       (fallback : String → PolicyResponse),
      (sendRequestWithPolicy primary fallback p).sleeps =
        (List.range
          ((sendRequestWithPolicy primary fallback p).primaryAttempts - 1)).map
          (codeDelay p) ∧
      (sendRequestWithPolicy primary fallback p).primaryAttempts ≤
        p.maxRetries + 1) ∧
    (∀ (p : FailurePolicy) (primary : Nat → PolicyResponse)
       (fallback : String → PolicyResponse) (pre : List String) (id : String)
       (post : List String),
      (∀ k, (primary k).status ≠ ResponseStatus.success) →
      p.enableFailover = true →
      p.fallbackAgents = pre ++ id :: post →
      (∀ x ∈ pre, (fallback x).status ≠ ResponseStatus.success) →
      (fallback id).status = ResponseStatus.success →
      (sendRequestWithPolicy primary fallback p).result = fallback id) ∧
    (∀ (p : FailurePolicy) (primary : Nat → PolicyResponse)
       (fallback : String → PolicyResponse),
      (∀ k, (primary k).status ≠ ResponseStatus.success) →
      (∀ x ∈ p.fallbackAgents, (fallback x).status ≠ ResponseStatus.success) →
      (sendRequestWithPolicy primary fallback p).result =
        primary p.maxRetries) := by
  have hres : ∀ (p : FailurePolicy) (primary : Nat → PolicyResponse)
      (fh : String → PolicyResponse),
      (sendRequestWithPolicy primary fh p).result =
        (if (retryLoop primary p 0 p.maxRetries).1.status =
            ResponseStatus.success
         then (retryLoop primary p 0 p.maxRetries).1
         else if p.enableFailover ∧ p.fallbackAgents ≠ [] then
           (match firstFallbackSuccess fh p.fallbackAgents with
            | some r => r
            | Option.none => (retryLoop primary p 0 p.maxRetries).1)
         else (retryLoop primary p 0 p.maxRetries).1) :=
    fun _ _ _ => rfl
  refine ⟨?_, ?_, ?_⟩
  · intro p primary fallback
    have hsleep : (sendRequestWithPolicy primary fallback p).sleeps =
        (retryLoop primary p 0 p.maxRetries).2.2 := rfl
    have hatt : (sendRequestWithPolicy primary fallback p).primaryAttempts =
        (retryLoop primary p 0 p.maxRetries).2.1 := rfl
    constructor
    · rw [hsleep, hatt, retryLoop_sleeps, List.range_eq_range']
      simp
    · rw [hatt]
      have := retryLoop_attempts_le primary p 0 p.maxRetries
      omega
  · intro p primary fallback pre id post hfail hfo hfb hpre hid
    have hlast := (retryLoop_allfail primary p hfail 0 p.maxRetries).1
    have hne : (retryLoop primary p 0 p.maxRetries).1.status ≠
        ResponseStatus.success := by
      rw [hlast]
      exact hfail (0 + p.maxRetries)
    have hfind : firstFallbackSuccess fallback p.fallbackAgents =
        some (fallback id) := by
      rw [hfb]
      exact firstFallbackSuccess_found fallback pre id post hpre hid
    have hnonempty : p.fallbackAgents ≠ [] := by
      rw [hfb]
      simp
    rw [hres, if_neg hne, if_pos ⟨hfo, hnonempty⟩, hfind]
  · intro p primary fallback hfail hfb
    have hlast := (retryLoop_allfail primary p hfail 0 p.maxRetries).1
    have hne : (retryLoop primary p 0 p.maxRetries).1.status ≠
        ResponseStatus.success := by
      rw [hlast]
      exact hfail (0 + p.maxRetries)
    have hfind := firstFallbackSuccess_none fallback p.fallbackAgents hfb
    rw [hres, if_neg hne]
    by_cases hc : p.enableFailover = true ∧ p.fallbackAgents ≠ []
    · rw [if_pos hc, hfind]
      simpa using hlast
    · rw [if_neg hc]
      simpa using hlast

/-- Witness for C4 at scenario S6: primary always unavailable under
`s6policy` (max_retries 2, delay 10 ms, multiplier 2, failover to B); the
failover to B succeeds and at most 3 primary attempts are made. -/
theorem c4_backoff_failover_witness :
    (sendRequestWithPolicy alwaysUnavailable (fun _ => okResp)
        s6policy).result = okResp ∧
    (sendRequestWithPolicy alwaysUnavailable (fun _ => okResp)
        s6policy).primaryAttempts ≤ 3 := by
  constructor
  · exact c4_backoff_failover.2.1 s6policy alwaysUnavailable (fun _ => okResp)
      [] "B" [] (fun k => by simp [alwaysUnavailable, unavailableResp]) rfl rfl
      (by simp) rfl
  · have h := (c4_backoff_failover.1 s6policy alwaysUnavailable
      (fun _ => okResp)).2
    simpa [s6policy] using h

/-! ### C5 — consensus tally -/

/-- The winner fold keeps an accumulator that no element strictly exceeds. -/
theorem codeWinner_fold_stable (l : List (String × Rat)) (o : String) (c : Rat)
    (h : ∀ p ∈ l, ¬ p.2 > c) :
    l.foldl (fun wm oc => if oc.2 > wm.2 then oc else wm) (o, c) = (o, c) := by
  induction l with
  | nil => rfl
  | cons x xs ih =>
    have hx : ¬ x.2 > c := h x (by simp)
    simp only [List.foldl]
    rw [if_neg hx]
    exact ih fun p hp => h p (by simp [hp])

/-- When the list has a unique strict maximum above the accumulator, the
winner fold returns it. -/
theorem codeWinner_fold_unique (l : List (String × Rat)) (o : String) (c : Rat)
    (acc : String × Rat) (hacc : acc.2 < c) (hmem : (o, c) ∈ l)
    (hmax : ∀ p ∈ l, p ≠ (o, c) → p.2 < c) :
    l.foldl (fun wm oc => if oc.2 > wm.2 then oc else wm) acc = (o, c) := by
  induction l generalizing acc with
  | nil => cases hmem
  | cons x xs ih =>
    by_cases hx : x = (o, c)
    · subst hx
      simp only [List.foldl]
      rw [if_pos hacc]
      apply codeWinner_fold_stable
      intro p hp
      by_cases hpe : p = (o, c)
      · subst hpe
        simp
      · have := hmax p (by simp [hp]) hpe
        exact not_lt.mpr (le_of_lt this)
    · have hmem2 : (o, c) ∈ xs := by
        cases hmem with
        | head => exact absurd rfl hx
        | tail _ h2 => exact h2
      have hxlt : x.2 < c := hmax x (by simp) hx
      simp only [List.foldl]
      by_cases hgt : x.2 > acc.2
      · rw [if_pos hgt]
        exact ih x hxlt hmem2 fun p hp hpe => hmax p (by simp [hp]) hpe
      · rw [if_neg hgt]
        exact ih acc hacc hmem2 fun p hp hpe => hmax p (by simp [hp]) hpe

/-- Claim C5 counterexample: a weighted ballot with one vote of weight zero.
The claim says the winner is the option with the greatest weighted count
("x", count 0) and that a weighted ballot returns the winner unconditionally —
so "x".  The code's winner scan starts its running maximum at 0 and only
replaces on a STRICTLY greater count (agent-collab.cpp lines 694-702), so the
zero-weight option never becomes the winner and the finalized result is
empty. -/
theorem c5_zero_weight_counterexample :
    calculateResult zeroWeightBallot = "" ∧
    specCalculateResult zeroWeightBallot = "x" ∧
    ¬ ("" : String) = "x" := by
  refine ⟨?_, ?_, by decide⟩
  · simp [calculateResult, zeroWeightBallot, tallyCounts, addCount, voteWeight,
      alookup, codeWinner]
  · simp [specCalculateResult, zeroWeightBallot, tallyCounts, addCount,
      voteWeight, alookup, specWinner]

/-- Claim C5 (amended): on a ballot whose tally has an option with a strictly
positive count strictly above every other option's count (so no tie — ties are
resolved by the unordered-map iteration order, which is unspecified, not by
option id), `calculate_result` returns exactly what the claim says: that
winner gated by percentage > 0.5 for simple_majority, ≥ 0.66 for
supermajority, = 1 (i.e. ≥ 1) for unanimous, and unconditionally for
weighted; an empty vote set yields the empty result. -/
theorem c5_tally_contract (v : ConsensusVote) (o : String) (c : Rat)
    (hne : v.votes ≠ [])
    (hmem : (o, c) ∈ tallyCounts v)
    (hpos : 0 < c)
    (hmax : ∀ p ∈ tallyCounts v, p ≠ (o, c) → p.2 < c) :
    calculateResult v =
      (match v.ctype with
       | ConsensusType.simpleMajority =>
         if (if totalWeight v > 0 then c / totalWeight v else 0) > 1 / 2
         then o else ""
       | ConsensusType.supermajority =>
         if (if totalWeight v > 0 then c / totalWeight v else 0) ≥ 33 / 50
         then o else ""
       | ConsensusType.unanimous =>
         if (if totalWeight v > 0 then c / totalWeight v else 0) ≥ 1
         then o else ""
       | ConsensusType.weighted => o) := by
  have hwin : codeWinner (tallyCounts v) = (o, c) :=
    codeWinner_fold_unique (tallyCounts v) o c ("", 0) (by simpa using hpos)
      hmem hmax
  have hcalc : calculateResult v =
      (let wm := codeWinner (tallyCounts v)
       let total := totalWeight v
       let pct : Rat := if total > 0 then wm.2 / total else 0
       match v.ctype with
       | ConsensusType.simpleMajority => if pct > 1 / 2 then wm.1 else ""
       | ConsensusType.supermajority => if pct ≥ 33 / 50 then wm.1 else ""
       | ConsensusType.unanimous => if pct ≥ 1 then wm.1 else ""
       | ConsensusType.weighted => wm.1) := by
    simp [calculateResult, hne]
  rw [hcalc, hwin]

/-- Witness for C5 at scenario S5: supermajority with casts yes/yes/no gives
percentage 2/3 ≥ 0.66, so the result is "yes". -/
theorem c5_tally_contract_witness : calculateResult superBallot = "yes" := by
  have htc : tallyCounts superBallot = [("yes", 2), ("no", 1)] := by
    simp [tallyCounts, superBallot, addCount, voteWeight]
    norm_num
  have htot : totalWeight superBallot = 3 := by
    simp [totalWeight, superBallot, voteWeight]
    norm_num
  have h := c5_tally_contract superBallot "yes" 2 (by simp [superBallot])
    (by rw [htc]; simp)
    (by norm_num)
    (by
      rw [htc]
      intro p hp hpe
      simp at hp
      rcases hp with h1 | h1
      · exact absurd (by rw [h1]) hpe
      · rw [h1]
        norm_num)
  rw [h, htot]
  norm_num [superBallot]

/-! ### C6 — JSON round-trip -/

theorem strMapOfJson_encode (m : List (String × String)) :
    strMapOfJson (encodeStrMap m) = m := by
  induction m with
  | nil => rfl
  | cons x xs ih =>
    simpa [encodeStrMap, strMapOfJson, List.filterMap_cons] using ih

theorem strListOfJson_encode (l : List String) :
    strListOfJson (encodeStrList l) = l := by
  induction l with
  | nil => rfl
  | cons x xs ih =>
    simpa [encodeStrList, strListOfJson, List.filterMap_cons] using ih

theorem parseMessageType_toString (t : MessageType) :
    parseMessageType (messageTypeToString t) = t := by
  cases t <;> decide

theorem parseResponseStatus_toString (s : ResponseStatus) :
    parseResponseStatus (responseStatusToString s) = s := by
  cases s <;> decide

theorem parseAgentStatus_toString (s : AgentStatus) :
    parseAgentStatus (agentStatusToString s) = s := by
  cases s <;> decide

theorem turn_decode_encode (t : ConversationTurn) (now : Int) :
    ConversationTurn.decode (ConversationTurn.encode t) now = t := by
  simp [ConversationTurn.decode, ConversationTurn.encode, Json.vStr, Json.vInt,
    Json.vStrList, Json.vStrMap, Json.getField, jLookup, strMapOfJson_encode,
    strListOfJson_encode]

theorem turnList_decode_encode (ts : List ConversationTurn) (now : Int) :
    (ts.map ConversationTurn.encode).map
      (fun tj => ConversationTurn.decode tj now) = ts := by
  induction ts with
  | nil => rfl
  | cons t ts ih => simp [turn_decode_encode, ih]

theorem turnList_decode_encode_comp (ts : List ConversationTurn) (now : Int) :
    ts.map ((fun tj => ConversationTurn.decode tj now) ∘
      ConversationTurn.encode) = ts := by
  induction ts with
  | nil => rfl
  | cons t ts ih => simp [Function.comp, turn_decode_encode, ih]

/-- Claim C6 counterexample: encode the failure record of a timeout failure
and decode it — `failure_record::from_json` stores `ERROR_TYPE_UNKNOWN`
instead of parsing the `error` field (failure.cpp lines 102-103), so the
round-trip does not return the original record. -/
theorem c6_failure_record_counterexample :
    FailureRecord.decode (FailureRecord.encode failRecTimeout) 0 ≠
      failRecTimeout := by
  decide

/-- Claim C6 (amended): decode ∘ encode is the identity, field for field and
including the enumerated kind/status fields, for agent_message,
agent_request, agent_response, conversation_turn, conversation_thread,
agent_info and knowledge_entry (the latter two via `agent_info::from_json`
and the per-entry decode of `knowledge_base::from_json`); for failure_record
every field round-trips EXCEPT the error kind, which always decodes to
unknown.  (agent_task, task_result and consensus_vote have `to_json` only —
no inverse `from_json` exists in the code; the HTTP adapter builds tasks from
request bodies but generates fresh ids, timestamps and statuses rather than
inverting the encoding.) -/
theorem c6_json_roundtrip :
    (∀ (m : AgentMessage) (now : Int),
      AgentMessage.decode (AgentMessage.encode m) now = m) ∧
    (∀ r : AgentRequest, AgentRequest.decode (AgentRequest.encode r) = r) ∧
    (∀ r : AgentResponse, AgentResponse.decode (AgentResponse.encode r) = r) ∧
    (∀ (t : ConversationTurn) (now : Int),
      ConversationTurn.decode (ConversationTurn.encode t) now = t) ∧
    (∀ (th : ConversationThread) (now : Int),
      ConversationThread.decode (ConversationThread.encode th) now = th) ∧
    (∀ (a : AgentInfo) (now : Int),
      AgentInfo.decode (AgentInfo.encode a) now = a) ∧
    (∀ e : KnowledgeEntry,
      KnowledgeEntry.decode (KnowledgeEntry.encode e) = e) ∧
    (∀ (fr : FailureRecord) (now : Int),
      FailureRecord.decode (FailureRecord.encode fr) now =
        { fr with error := ErrorType.unknown }) := by
  refine ⟨?_, ?_, ?_, turn_decode_encode, ?_, ?_, ?_, ?_⟩
  · intro m now
    simp [AgentMessage.decode, AgentMessage.encode, Json.vStr, Json.vInt,
      Json.vStrMap, Json.getField, jLookup, strMapOfJson_encode,
      parseMessageType_toString]
  · intro r
    simp [AgentRequest.decode, AgentRequest.encode, Json.vStr, Json.vInt,
      Json.vRat, Json.vStrList, Json.vStrMap, Json.getField, jLookup,
      strMapOfJson_encode, strListOfJson_encode]
  · intro r
    simp [AgentResponse.decode, AgentResponse.encode, Json.vStr, Json.vInt,
      Json.vStrMap, Json.getField, jLookup, strMapOfJson_encode,
      parseResponseStatus_toString]
  · intro th now
    simp [ConversationThread.decode, ConversationThread.encode, Json.vStr,
      Json.vInt, Json.vStrMap, Json.getField, jLookup, strMapOfJson_encode,
      turnList_decode_encode_comp]
  · intro a now
    simp [AgentInfo.decode, AgentInfo.encode, Json.vStr, Json.vInt,
      Json.vStrList, Json.vStrMap, Json.getField, jLookup,
      strMapOfJson_encode, strListOfJson_encode, parseAgentStatus_toString]
  · intro e
    simp [KnowledgeEntry.decode, KnowledgeEntry.encode, Json.vStr, Json.vInt,
      Json.vStrList, Json.getField, jLookup, strListOfJson_encode]
  · intro fr now
    simp [FailureRecord.decode, FailureRecord.encode, Json.vStr, Json.vInt,
      Json.vBool, Json.getField, jLookup]

/-! ### C7 — context builder postconditions -/

/-- The turn collection never includes more turns than it is given. -/
theorem collectTurns_length_le (maxT : Int) (tok : Int)
    (l : List ConversationTurn) :
    (collectTurns maxT tok l).1.length ≤ l.length := by
  induction l generalizing tok with
  | nil => simp [collectTurns]
  | cons t rest ih =>
    simp only [collectTurns]
    split
    · simp
    · simp only [List.length_cons]
      have := ih (tok + estimateTurnTokens t)
      omega

/-- A truncated turn collection dropped at least one turn. -/
theorem collectTurns_trunc_lt (maxT : Int) (tok : Int)
    (l : List ConversationTurn)
    (h : (collectTurns maxT tok l).2.2 = true) :
    (collectTurns maxT tok l).1.length < l.length := by
  induction l generalizing tok with
  | nil => simp [collectTurns] at h
  | cons t rest ih =>
    simp only [collectTurns] at h ⊢
    by_cases hb : maxT > 0 ∧ tok + (estimateTurnTokens t : Int) > maxT
    · rw [if_pos hb]
      simp
    · rw [if_neg hb] at h ⊢
      simp only [List.length_cons]
      have := ih (tok + estimateTurnTokens t) h
      omega

/-- The collected turns are an initial segment of the input. -/
theorem collectTurns_take (maxT : Int) (tok : Int) (l : List ConversationTurn) :
    (collectTurns maxT tok l).1 = l.take (collectTurns maxT tok l).1.length := by
  induction l generalizing tok with
  | nil => simp [collectTurns]
  | cons t rest ih =>
    simp only [collectTurns]
    split
    · simp
    · simp only [List.length_cons, List.take_succ_cons, List.cons.injEq,
        eq_self_iff_true, true_and]
      exact ih (tok + estimateTurnTokens t)

/-- Taking from the reversed list and reversing back is dropping from the
front. -/
theorem reverse_take_reverse_eq_drop {α : Type} (l : List α) (n : Nat) :
    (l.reverse.take n).reverse = l.drop (l.length - n) := by
  rw [← List.rtake_eq_reverse_take_reverse]
  rfl

/-- `addFiles` only appends elements that are not yet present. -/
theorem addFiles_nodup (fs : List String) (acc : List String)
    (h : acc.Nodup) : (addFiles acc fs).Nodup := by
  induction fs generalizing acc with
  | nil => exact h
  | cons f fs ih =>
    simp only [addFiles]
    apply ih
    by_cases hf : f ∈ acc
    · rw [if_pos hf]
      exact h
    · rw [if_neg hf]
      simp [List.nodup_append, h, hf]

/-- The deduplicated newest-first file collection has no duplicates. -/
theorem collectAllFiles_nodup (turns : List ConversationTurn) :
    (collectAllFiles turns).Nodup := by
  have general : ∀ (ts : List ConversationTurn) (acc : List String),
      acc.Nodup → (ts.foldl (fun acc t => addFiles acc t.files) acc).Nodup := by
    intro ts
    induction ts with
    | nil => intro acc h; exact h
    | cons t ts ih =>
      intro acc h
      exact ih (addFiles acc t.files) (addFiles_nodup t.files acc h)
  exact general turns.reverse [] (by simp)

/-- A truncated file pass omitted some file of its (duplicate-free) input. -/
theorem includeFilesLoop_trunc (maxT : Int) (env : String → Option String)
    (tok : Int) (fs : List String) (hnd : fs.Nodup)
    (h : (includeFilesLoop maxT env tok fs).truncated = true) :
    ∃ f ∈ fs, f ∉ (includeFilesLoop maxT env tok fs).included := by
  induction fs with
  | nil => simp [includeFilesLoop] at h
  | cons f fs ih =>
    have hnd2 : fs.Nodup := (List.nodup_cons.mp hnd).2
    have hfnot : f ∉ fs := (List.nodup_cons.mp hnd).1
    by_cases hb : maxT > 0 ∧ tok + (estimateFileTokens env f : Int) > maxT / 2
    · refine ⟨f, by simp, ?_⟩
      simp [includeFilesLoop, hb]
    · simp only [includeFilesLoop] at h ⊢
      rw [if_neg hb] at h ⊢
      split at h
      next c heq =>
        dsimp only at h ⊢
        obtain ⟨g, hg, hgnot⟩ := ih hnd2 h
        refine ⟨g, by simp [hg], ?_⟩
        intro hmem
        rcases List.mem_cons.mp hmem with hgf | hgin
        · exact hfnot (hgf ▸ hg)
        · exact hgnot hgin
      next heq =>
        dsimp only at h ⊢
        obtain ⟨g, hg, hgnot⟩ := ih hnd2 h
        exact ⟨g, by simp [hg], hgnot⟩

/-- A truncated files pass omitted some referenced file. -/
theorem filesPass_trunc (th : ConversationThread) (maxT : Int) (incF : Bool)
    (env : String → Option String)
    (h : (filesPass th maxT incF env).truncated = true) :
    ∃ f ∈ collectAllFiles th.turns,
      f ∉ (filesPass th maxT incF env).included := by
  by_cases hc : incF = true ∧ collectAllFiles th.turns ≠ []
  · have hsame : (filesPass th maxT incF env).truncated =
        (includeFilesLoop maxT env 0 (collectAllFiles th.turns)).truncated := by
      simp [filesPass, hc]
    have hinc : (filesPass th maxT incF env).included =
        (includeFilesLoop maxT env 0 (collectAllFiles th.turns)).included := by
      simp [filesPass, hc]
    rw [hsame] at h
    rw [hinc]
    exact includeFilesLoop_trunc maxT env 0 (collectAllFiles th.turns)
      (collectAllFiles_nodup th.turns) h
  · exfalso
    have : (filesPass th maxT incF env).truncated = false := by
      simp only [filesPass]
      rw [if_neg hc]
    rw [this] at h
    cases h

/-- Claim C7: for every thread, budget, file flag and file environment, the
context builder (i) includes at most the thread's turns; (ii) sets
`truncated` only when it dropped a turn or omitted a referenced file; and
(iii) emits the selected turns as a suffix of the thread's turn list in
chronological (insertion) order, even though they were collected newest
first — the full_context text is the header sections followed by exactly
those turns in that order. -/
theorem c7_context_builder (th : ConversationThread) (maxT : Int)
    (incF : Bool) (env : String → Option String) :
    (buildConversationHistory th maxT incF env).turnsIncluded ≤
      th.turns.length ∧
    ((buildConversationHistory th maxT incF env).truncated = true →
      (buildConversationHistory th maxT incF env).turnsIncluded <
        th.turns.length ∨
      ∃ f ∈ collectAllFiles th.turns,
        f ∉ (buildConversationHistory th maxT incF env).filesIncluded) ∧
    includedTurns th maxT incF env =
      th.turns.drop (th.turns.length -
        (buildConversationHistory th maxT incF env).turnsIncluded) ∧
    (buildConversationHistory th maxT incF env).fullContext =
      contextHeaderText th ++ initialContextText th ++
      (filesPass th maxT incF env).text ++
      historyTailText (includedTurns th maxT incF env)
        (buildConversationHistory th maxT incF env).truncated := by
  have hTI : (buildConversationHistory th maxT incF env).turnsIncluded =
      (collectTurns maxT (filesPass th maxT incF env).fileTokens
        th.turns.reverse).1.length := by
    show (collectTurns maxT (filesPass th maxT incF env).fileTokens
      th.turns.reverse).1.reverse.length = _
    rw [List.length_reverse]
  have hle := collectTurns_length_le maxT
    (filesPass th maxT incF env).fileTokens th.turns.reverse
  refine ⟨?_, ?_, ?_, rfl⟩
  · rw [hTI]
    simpa using hle
  · intro htr
    have hor : (filesPass th maxT incF env).truncated = true ∨
        (collectTurns maxT (filesPass th maxT incF env).fileTokens
          th.turns.reverse).2.2 = true := by
      have : ((filesPass th maxT incF env).truncated ||
          (collectTurns maxT (filesPass th maxT incF env).fileTokens
            th.turns.reverse).2.2) = true := htr
      exact Bool.or_eq_true_iff.mp this
    cases hor with
    | inl hf =>
      right
      have := filesPass_trunc th maxT incF env hf
      exact this
    | inr ht =>
      left
      rw [hTI]
      have := collectTurns_trunc_lt maxT
        (filesPass th maxT incF env).fileTokens th.turns.reverse ht
      simpa using this
  · rw [hTI]
    show (collectTurns maxT (filesPass th maxT incF env).fileTokens
      th.turns.reverse).1.reverse = _
    rw [collectTurns_take maxT (filesPass th maxT incF env).fileTokens
      th.turns.reverse]
    rw [reverse_take_reverse_eq_drop]
    rw [List.length_take, List.length_reverse]
    congr 1
    simp only [List.length_reverse] at hle
    omega

/-- Witness for C7 at a concrete empty thread with budget 100. -/
theorem c7_context_builder_witness :
    (buildConversationHistory emptyThread 100 true (fun _ => Option.none)
      ).turnsIncluded ≤ emptyThread.turns.length :=
  (c7_context_builder emptyThread 100 true (fun _ => Option.none)).1

/-! ### C8 — scheduler DAG dispatch -/

theorem ainsert_fresh {α : Type} (k : String) (v : α) (l : List (String × α))
    (h : alookup k l = Option.none) : ainsert k v l = l ++ [(k, v)] := by
  simp [ainsert, h]

theorem alookup_append_some {α : Type} (k : String) (l1 l2 : List (String × α))
    (v : α) (h : alookup k l1 = some v) : alookup k (l1 ++ l2) = some v := by
  induction l1 with
  | nil => simp [alookup] at h
  | cons x xs ih =>
    obtain ⟨x1, x2⟩ := x
    simp only [alookup, List.cons_append] at h ⊢
    by_cases hx : x1 = k
    · rw [if_pos hx] at h ⊢
      exact h
    · rw [if_neg hx] at h ⊢
      exact ih h

theorem alookup_aupdate_self {α : Type} (k : String) (f : α → α)
    (l : List (String × α)) :
    alookup k (aupdate k f l) = (alookup k l).map f := by
  induction l with
  | nil => rfl
  | cons x xs ih =>
    obtain ⟨x1, x2⟩ := x
    by_cases hx : x1 = k
    · simp [aupdate, alookup, hx]
    · simp [aupdate, alookup, hx, ih]

theorem alookup_aupdate_ne {α : Type} (k k2 : String) (f : α → α)
    (l : List (String × α)) (h : k2 ≠ k) :
    alookup k2 (aupdate k f l) = alookup k2 l := by
  induction l with
  | nil => rfl
  | cons x xs ih =>
    obtain ⟨x1, x2⟩ := x
    simp only [aupdate]
    by_cases hx : x1 = k
    · rw [if_pos hx]
      have hne : ¬ x1 = k2 := by
        intro he
        apply h
        rw [← he]
        exact hx
      simp only [alookup]
      rw [if_neg hne, if_neg hne]
    · rw [if_neg hx]
      simp only [alookup]
      by_cases hx2 : x1 = k2
      · rw [if_pos hx2, if_pos hx2]
      · rw [if_neg hx2, if_neg hx2]
        exact ih

/-- The executability check is exactly the all-dependencies-completed
property. -/
theorem canExecute_iff (m : List (String × AgentTask)) (t : AgentTask) :
    canExecute m t = true ↔ depsCompleted m t := by
  simp only [canExecute, depsCompleted, List.all_eq_true]
  constructor
  · intro h d hd
    have hx := h d hd
    cases hm : alookup d m with
    | none => rw [hm] at hx; cases hx
    | some dt =>
      rw [hm] at hx
      exact ⟨dt, rfl, by simpa using hx⟩
  · intro h d hd
    obtain ⟨dt, hdt, hst⟩ := h d hd
    rw [hdt]
    simpa using hst

/-- Growing the map with a fresh binding preserves completed lookups. -/
theorem depsCompleted_append (m : List (String × AgentTask))
    (kv : String × AgentTask) (u : AgentTask) (hu : depsCompleted m u) :
    depsCompleted (m ++ [kv]) u := by
  intro d hd
  obtain ⟨dt, hdt, hst⟩ := hu d hd
  exact ⟨dt, alookup_append_some d m [kv] dt hdt, hst⟩

/-- Marking any task completed preserves completed lookups. -/
theorem depsCompleted_complete (m : List (String × AgentTask)) (id : String)
    (u : AgentTask) (hu : depsCompleted m u) :
    depsCompleted (aupdate id (fun t => { t with status := .completed }) m)
      u := by
  intro d hd
  obtain ⟨dt, hdt, hst⟩ := hu d hd
  by_cases hdid : d = id
  · subst hdid
    rw [alookup_aupdate_self, hdt]
    exact ⟨{ dt with status := .completed }, rfl, rfl⟩
  · rw [alookup_aupdate_ne id d _ m hdid]
    exact ⟨dt, hdt, hst⟩

/-- `submit` preserves the queue invariant when the id is fresh. -/
theorem submit_preserves_inv (s : SchedState) (tk : AgentTask)
    (hfresh : alookup tk.taskId s.taskMap = Option.none)
    (hinv : ∀ t ∈ s.taskQueue, depsCompleted s.taskMap t) :
    ∀ t ∈ (s.submit tk).taskQueue, depsCompleted (s.submit tk).taskMap t := by
  intro t ht
  have hmap : (s.submit tk).taskMap = s.taskMap ++ [(tk.taskId, tk)] := by
    simp [SchedState.submit, ainsert_fresh tk.taskId tk s.taskMap hfresh]
  have hq : (s.submit tk).taskQueue =
      (if canExecute (ainsert tk.taskId tk s.taskMap) tk
       then s.taskQueue ++ [tk] else s.taskQueue) := rfl
  rw [hmap]
  rw [hq] at ht
  rw [ainsert_fresh tk.taskId tk s.taskMap hfresh] at ht
  split at ht
  next hcan =>
    rcases List.mem_append.mp ht with hold | hnew
    · exact depsCompleted_append s.taskMap _ t (hinv t hold)
    · have heq : t = tk := by simpa using hnew
      subst heq
      exact (canExecute_iff _ t).mp hcan
  next hcan =>
    exact depsCompleted_append s.taskMap _ t (hinv t ht)

/-- A successful queue scan returns a queue member and a subset of the
queue. -/
theorem findFirstMatch_sub (roles : List String) (q : List AgentTask)
    (t : AgentTask) (q2 : List AgentTask)
    (h : findFirstMatch roles q = some (t, q2)) :
    t ∈ q ∧ ∀ x ∈ q2, x ∈ q := by
  induction q generalizing q2 with
  | nil => simp [findFirstMatch] at h
  | cons u rest ih =>
    simp only [findFirstMatch] at h
    split at h
    · have h1 : u = t ∧ rest = q2 := by
        have := Option.some.inj h
        exact ⟨congrArg Prod.fst this, congrArg Prod.snd this⟩
      obtain ⟨h1a, h1b⟩ := h1
      subst h1a
      subst h1b
      exact ⟨by simp, fun x hx => by simp [hx]⟩
    · cases hf : findFirstMatch roles rest with
      | none => rw [hf] at h; cases h
      | some pr =>
        obtain ⟨f, q3⟩ := pr
        rw [hf] at h
        have h1 : f = t ∧ u :: q3 = q2 := by
          have := Option.some.inj h
          exact ⟨congrArg Prod.fst this, congrArg Prod.snd this⟩
        obtain ⟨h1a, h1b⟩ := h1
        subst h1a
        subst h1b
        obtain ⟨hfin, hsub⟩ := ih q3 hf
        refine ⟨by simp [hfin], ?_⟩
        intro x hx
        rcases List.mem_cons.mp hx with hxu | hxq
        · simp [hxu]
        · simp [hsub x hxq]

/-- `get_next_task` preserves the queue invariant. -/
theorem getNext_preserves_inv (s : SchedState) (roles : List String)
    (hinv : ∀ t ∈ s.taskQueue, depsCompleted s.taskMap t) :
    ∀ t ∈ (s.getNextTask roles).2.taskQueue,
      depsCompleted (s.getNextTask roles).2.taskMap t := by
  cases hf : findFirstMatch roles s.taskQueue with
  | none =>
    intro t ht
    have heq : (s.getNextTask roles).2 = s := by
      simp [SchedState.getNextTask, hf]
    rw [heq] at ht ⊢
    exact hinv t ht
  | some pr =>
    obtain ⟨t0, q2⟩ := pr
    intro t ht
    have heq : (s.getNextTask roles).2 = { s with taskQueue := q2 } := by
      simp [SchedState.getNextTask, hf]
    rw [heq] at ht ⊢
    exact hinv t ((findFirstMatch_sub roles s.taskQueue t0 q2 hf).2 t ht)

/-- The dependent-release fold only enqueues executable tasks. -/
theorem notify_fold_mem (m : List (String × AgentTask)) (dids : List String)
    (q0 : List AgentTask) :
    ∀ x ∈ dids.foldl (fun q did =>
        match alookup did m with
        | some t => if canExecute m t then q ++ [t] else q
        | Option.none => q) q0,
      x ∈ q0 ∨ canExecute m x = true := by
  induction dids generalizing q0 with
  | nil =>
    intro x hx
    exact Or.inl hx
  | cons d ds ih =>
    intro x hx
    simp only [List.foldl_cons] at hx
    cases hm : alookup d m with
    | none =>
      try rw [hm] at hx
      try dsimp only at hx
      exact ih q0 x hx
    | some t =>
      try rw [hm] at hx
      try dsimp only at hx
      by_cases hc : canExecute m t = true
      · rw [if_pos hc] at hx
        rcases ih (q0 ++ [t]) x hx with hin | hcan
        · rcases List.mem_append.mp hin with h0 | ht
          · exact Or.inl h0
          · have : x = t := by simpa using ht
            subst this
            exact Or.inr hc
        · exact Or.inr hcan
      · rw [if_neg hc] at hx
        exact ih q0 x hx

/-- `complete_task` preserves the queue invariant. -/
theorem complete_preserves_inv (s : SchedState) (id : String)
    (res : TaskResult)
    (hinv : ∀ t ∈ s.taskQueue, depsCompleted s.taskMap t) :
    ∀ t ∈ (s.completeTask id res).taskQueue,
      depsCompleted (s.completeTask id res).taskMap t := by
  cases hm : alookup id s.taskMap with
  | none =>
    intro t ht
    have heq : s.completeTask id res = s := by
      simp [SchedState.completeTask, hm]
    rw [heq] at ht ⊢
    exact hinv t ht
  | some tk =>
    intro t ht
    have hmap : (s.completeTask id res).taskMap =
        aupdate id (fun t => { t with status := .completed }) s.taskMap := by
      simp [SchedState.completeTask, hm]
    have hq : (s.completeTask id res).taskQueue =
        ((alookup id s.dependents).getD []).foldl (fun q did =>
          match alookup did
              (aupdate id (fun t => { t with status := .completed })
                s.taskMap) with
          | some t =>
            if canExecute
                (aupdate id (fun t => { t with status := .completed })
                  s.taskMap) t
            then q ++ [t] else q
          | Option.none => q) s.taskQueue := by
      simp [SchedState.completeTask, hm]
    rw [hq] at ht
    rw [hmap]
    rcases notify_fold_mem
      (aupdate id (fun t => { t with status := .completed }) s.taskMap)
      ((alookup id s.dependents).getD []) s.taskQueue t ht with hold | hcan
    · exact depsCompleted_complete s.taskMap id t (hinv t hold)
    · exact (canExecute_iff _ t).mp hcan

/-- The queue invariant holds in every state reachable under the normal task
lifecycle. -/
theorem schedReachOK_inv (s : SchedState) (h : SchedReachOK s) :
    ∀ t ∈ s.taskQueue, depsCompleted s.taskMap t := by
  induction h with
  | init =>
    intro t ht
    cases ht
  | submit s2 tk _ hfresh ih => exact submit_preserves_inv s2 tk hfresh ih
  | getNext s2 roles _ ih => exact getNext_preserves_inv s2 roles ih
  | complete s2 id res _ ih => exact complete_preserves_inv s2 id res ih

/-- Claim C8 counterexample: the claim quantifies over every reachable
scheduler state.  The trace submit A, submit B (depending on A), dispatch A,
complete A (which releases B into the ready queue), then fail A is reachable
through the public interface, and in its final state `get_next_task` returns
B while B's dependency A has status failed — dependencies of a dispatched
task need not be completed, because nothing re-blocks an already released
dependent. -/
theorem c8_dispatch_counterexample :
    ¬ (∀ (s : SchedState), SchedReach s →
        ∀ (roles : List String) (t : AgentTask) (s2 : SchedState),
        s.getNextTask roles = (some t, s2) → depsCompleted s.taskMap t) := by
  intro hclaim
  have hreach : SchedReach schedTrace :=
    SchedReach.fail _ "A" "boom"
      (SchedReach.complete _ "A" resA
        (SchedReach.getNext _ ["dev"]
          (SchedReach.submit _ taskB
            (SchedReach.submit _ taskA SchedReach.init))))
  have heq : schedTrace.getNextTask ["dev"] =
      (some taskB, (schedTrace.getNextTask ["dev"]).2) := by decide
  have hdeps := hclaim schedTrace hreach ["dev"] taskB _ heq
  have htrue : canExecute schedTrace.taskMap taskB = true :=
    (canExecute_iff _ taskB).mpr hdeps
  have hfalse : canExecute schedTrace.taskMap taskB = false := by decide
  rw [hfalse] at htrue
  cases htrue

/-- Claim C8 (amended): a task is enqueued only at a moment when all of its
dependencies are completed, and `fail`/`cancel` never enqueue dependents; so
in every state reachable through fresh-id submits, dispatches and completes
(the normal lifecycle — with no fail/cancel/status overwrite of a task that
already released its dependents), every task returned by `get_next_task` has
all of its dependencies in status completed. -/
theorem c8_dag_dispatch (s : SchedState) (hs : SchedReachOK s)
    (roles : List String) (t : AgentTask) (s2 : SchedState)
    (h : s.getNextTask roles = (some t, s2)) :
    depsCompleted s.taskMap t := by
  have hinv := schedReachOK_inv s hs
  cases hf : findFirstMatch roles s.taskQueue with
  | none =>
    have heq : s.getNextTask roles = (Option.none, s) := by
      simp [SchedState.getNextTask, hf]
    rw [heq] at h
    exact Option.noConfusion (congrArg Prod.fst h)
  | some pr =>
    obtain ⟨t0, q2⟩ := pr
    have heq : s.getNextTask roles = (some t0, { s with taskQueue := q2 }) := by
      simp [SchedState.getNextTask, hf]
    rw [heq] at h
    have ht0 : t0 = t := by
      have := congrArg Prod.fst h
      simpa using this
    subst ht0
    exact hinv t0 (findFirstMatch_sub roles s.taskQueue t0 q2 hf).1

/-- Witness for C8: submit a dependency-free task A to the empty scheduler;
dispatching it satisfies the dependency condition (vacuously). -/
theorem c8_dag_dispatch_witness : depsCompleted schedOne.taskMap taskA :=
  c8_dag_dispatch schedOne
    (SchedReachOK.submit SchedState.init taskA SchedReachOK.init rfl)
    ["dev"] taskA (schedOne.getNextTask ["dev"]).2 (by decide)

end AgentSpec
